import Mathlib

/-!
Verification development for the Configuru configuration library
(src/configuru.hpp): a shallow embedding of its value model, parser and
writer, with theorems checking the natural-language specification.

Modelling conventions:
* C++ byte strings (std::string, the parser input, keys, comments) are
  `List Char`, one `Char` per byte value (all inputs of interest are ASCII;
  bytes produced by `encode_utf8` are chars with code < 256).
* 64-bit machine integers are `Int` with explicit wrap-around arithmetic
  (`% 2 ^ w`) at the points where the C++ code converts between widths.
* C++ `double` is the abstract type `FloatD`: the claims under check never
  compare or format concrete floating-point values, so `strtod` results are
  kept as uninterpreted literals; IEEE equality is modelled structurally
  with NaN unequal to everything (floating-point arithmetic itself is out
  of scope, as in the specification).
* Reference-counted shared allocations (ConfigObject/ConfigArray) carry an
  optional allocation id `sid : Option Nat`; the C++ pointer-equality
  short-circuit of deep_eq compares these ids, `none` meaning a fresh,
  never-shared allocation (what a single parse without includes produces).
* Exceptions (CONFIGURU_ONERROR, ParseError) are `Except` errors; the
  error kinds carried by accessor failures are reified in `CErr` so claims
  about which error is raised are statable without string matching.
* Loops and recursion are fuel-indexed where the C++ recursion is not
  structural; every entry point is given fuel that is provably sufficient
  for the inputs used.
* External collaborators (the file system used by #include, the
  dangling-key warning sink) are modelled as an explicit oracle
  (`FileSys`) and as a returned list of warnings, following the spec's
  description of them as external interfaces.
-/

namespace Configuru

/-! ## Bytes and small helpers -/

/-- A C++ byte string, one `Char` per byte. -/
abbrev Bytes := List Char

/-- Bytes of an ASCII Lean string literal. -/
def bytes (s : String) : Bytes := s.data

/-- The NUL byte that terminates C strings. -/
def nulChar : Char := Char.ofNat 0

/-- Lexicographic byte order of std::string (operator<). -/
def strLtB : Bytes → Bytes → Bool
  | [], [] => false
  | [], _ :: _ => true
  | _ :: _, [] => false
  | a :: as, b :: bs =>
    if a.toNat < b.toNat then true
    else if b.toNat < a.toNat then false
    else strLtB as bs

/-! ## The value model (class Config) -/

/-- The `Config::Type` tag. -/
inductive CType where
  | uninitialized
  | badLookupType
  | nullT
  | boolT
  | intT
  | floatT
  | stringT
  | arrayT
  | objectT
deriving DecidableEq, Repr

/-- Abstract model of a C++ `double` payload. `lit s` is the value
`strtod(s)`; concrete float arithmetic is out of scope. -/
inductive FloatD where
  | lit (s : Bytes)
  | negF (f : FloatD)
  | infP
  | infN
  | nanQ
deriving DecidableEq, Repr

/-- IEEE `==` on doubles, modelled structurally on the abstract
representation: NaN compares unequal to everything (as in IEEE); the
remaining cases are syntactic. No claim under check compares floats. -/
def doubleEq : FloatD → FloatD → Bool
  | .nanQ, _ => false
  | _, .nanQ => false
  | .lit a, .lit b => a == b
  | .negF a, .negF b => doubleEq a b
  | .infP, .infP => true
  | .infN, .infN => true
  | _, _ => false

/-- The `ConfigComments` triple (comments on preceding lines, trailing
comments on the same line, comments before the closing brace). -/
structure CommentsV where
  preComs : List Bytes
  postComs : List Bytes
  endBraceComs : List Bytes
deriving DecidableEq, Repr

/-- The empty `ConfigComments`. -/
def CommentsV.emptyV : CommentsV := ⟨[], [], []⟩

/-- `ConfigComments::empty`. -/
def CommentsV.isEmptyV (c : CommentsV) : Bool :=
  c.preComs.isEmpty && c.postComs.isEmpty && c.endBraceComs.isEmpty

/-- `ConfigComments::append` (configuru::append on each list). -/
def CommentsV.appendV (a b : CommentsV) : CommentsV :=
  ⟨a.preComs ++ b.preComs, a.postComs ++ b.postComs,
   a.endBraceComs ++ b.endBraceComs⟩

mutual
/-- A `configuru::Config` value: tagged payload, provenance (`_doc` as the
owning document's filename, `_line` with `none` for the unsigned -1
sentinel), and the optional `_comments` block (`none` models a null
`ConfigComments_UP`). -/
inductive Config where
  | mk (val : CfgVal) (doc : Option String) (line : Option Nat)
       (comms : Option CommentsV)

/-- The active member of the `Config::_u` union, together with the tag.
`badLookup` carries the `BadLookupInfo` fields (parent doc, parent line,
missing key). `arrV`/`objV` carry the allocation id of the shared
`ConfigArray`/`ConfigObject`. -/
inductive CfgVal where
  | uninit
  | badLookup (bdoc : Option String) (bline : Option Nat) (bkey : Bytes)
  | nullV
  | boolV (b : Bool)
  | intV (i : Int)
  | floatV (f : FloatD)
  | strV (s : Bytes)
  | arrV (sid : Option Nat) (elems : List Config)
  | objV (sid : Option Nat) (entries : List EntryKV)

/-- One `Config::ObjectEntry` of the object map, keyed. `nr` is the
insertion index (`none` models BAD_ENTRY), `accessed` the mutable
access-tracking flag. -/
inductive EntryKV where
  | mk (key : Bytes) (value : Config) (nr : Option Nat) (accessed : Bool)
end

/-- Payload of a Config. -/
def Config.val : Config → CfgVal
  | .mk v _ _ _ => v

/-- Provenance document of a Config. -/
def Config.docOf : Config → Option String
  | .mk _ d _ _ => d

/-- Provenance line of a Config. -/
def Config.lineOf : Config → Option Nat
  | .mk _ _ l _ => l

/-- The `_comments` pointer of a Config. -/
def Config.commsOf : Config → Option CommentsV
  | .mk _ _ _ c => c

/-- Key of an object entry. -/
def EntryKV.key : EntryKV → Bytes
  | .mk k _ _ _ => k

/-- Value of an object entry. -/
def EntryKV.value : EntryKV → Config
  | .mk _ v _ _ => v

/-- Insertion index of an object entry. -/
def EntryKV.nr : EntryKV → Option Nat
  | .mk _ _ n _ => n

/-- Accessed flag of an object entry. -/
def EntryKV.accessed : EntryKV → Bool
  | .mk _ _ _ a => a

/-- `Config::type()` on the payload. -/
def CfgVal.typeOf : CfgVal → CType
  | .uninit => .uninitialized
  | .badLookup _ _ _ => .badLookupType
  | .nullV => .nullT
  | .boolV _ => .boolT
  | .intV _ => .intT
  | .floatV _ => .floatT
  | .strV _ => .stringT
  | .arrV _ _ => .arrayT
  | .objV _ _ => .objectT

/-- `Config::type()`. -/
def Config.typeOf (c : Config) : CType := c.val.typeOf

/-- A default-constructed `Config()` (Uninitialized, no provenance, no
comments). -/
def Config.uninitC : Config := .mk .uninit none none none

/-- `Config(int64_t)`-style construction from an integer literal. -/
def Config.ofInt (i : Int) : Config := .mk (.intV i) none none none

/-- `Config(bool)`. -/
def Config.ofBool (b : Bool) : Config := .mk (.boolV b) none none none

/-- `Config(std::string)`. -/
def Config.ofStr (s : Bytes) : Config := .mk (.strV s) none none none

/-- `Config(std::nullptr_t)`. -/
def Config.ofNull : Config := .mk .nullV none none none

/-- `Config(double)`. -/
def Config.ofFloat (f : FloatD) : Config := .mk (.floatV f) none none none

/-- `Config::is_number()`. -/
def Config.isNumber (c : Config) : Bool :=
  c.typeOf == .intT || c.typeOf == .floatT

/-- `Config::has_comments()` (_comments non-null and not empty). -/
def Config.hasComments (c : Config) : Bool :=
  match c.commsOf with
  | none => false
  | some cs => !cs.isEmptyV

/-- `Config::comments()` read access (empty block when null). -/
def Config.commentsRead (c : Config) : CommentsV :=
  (c.commsOf).getD CommentsV.emptyV

/-! ## Diagnostics: where_is and error kinds -/

/-- `where_is(doc, line)`: the location string used by every diagnostic.
Include chains (`append_include_info`) are empty in this embedding since
each modelled document has no includers recorded. -/
def whereIs (doc : Option String) (line : Option Nat) : String :=
  match doc with
  | some fn =>
    fn ++ (match line with
           | some l => ":" ++ toString l
           | none => "") ++ ": "
  | none =>
    match line with
    | some l => "line " ++ toString l ++ ": "
    | none => ""

/-- `Config::where()`. -/
def Config.whereStr (c : Config) : String := whereIs c.docOf c.lineOf

/-- The error kinds thrown by Config accessors (via CONFIGURU_ONERROR),
reified so theorems can state which failure occurs. Each constructor
carries the `where()` prefix string of the C++ message. -/
inductive CErr where
  | missingKey (whereS : String) (key : Bytes)
  | keyNotInObject (whereS : String) (key : Bytes)
  | typeMismatch (whereS : String) (expected got : CType)
  | intOutOfRange (whereS : String)
  | arrayIndexOutOfRange (whereS : String)
  | otherErr (whereS : String) (msg : String)
deriving DecidableEq, Repr

/-- `Config::assert_type`: a BadLookup value reports the missing key of
its `BadLookupInfo` (regardless of the expected type); any other tag
mismatch reports a type mismatch. -/
def assertType (c : Config) (t : CType) : Except CErr Unit :=
  match c.val with
  | .badLookup d l k => .error (.missingKey (whereIs d l) k)
  | v =>
    if v.typeOf == t then .ok ()
    else .error (.typeMismatch c.whereStr t v.typeOf)

/-! ## Typed accessors -/

/-- `Config::as_bool`. -/
def asBool (c : Config) : Except CErr Bool :=
  match assertType c .boolT with
  | .error e => .error e
  | .ok _ =>
    match c.val with
    | .boolV b => .ok b
    | _ => .error (.otherErr "" "unreachable")

/-- `Config::as_string`. -/
def asString (c : Config) : Except CErr Bytes :=
  match assertType c .stringT with
  | .error e => .error e
  | .ok _ =>
    match c.val with
    | .strV s => .ok s
    | _ => .error (.otherErr "" "unreachable")

/-- A C++ integral type `IntT` as used by `as_integer<IntT>`:
signedness and bit width. -/
structure IntTy where
  signed : Bool
  width : Nat
deriving DecidableEq, Repr

/-- Interpret the w-bit pattern `v` (`0 ≤ v < 2 ^ w`) as a signed value. -/
def sInterp (w : Nat) (v : Int) : Int :=
  if v < 2 ^ (w - 1) then v else v - 2 ^ w

/-- The mathematical value of `(IntT)i` for an int64 value `i`
(conversion wraps modulo `2 ^ width`, then is read back signed or
unsigned). -/
def castValue (t : IntTy) (i : Int) : Int :=
  let m := i % (2 ^ t.width)
  if t.signed then sInterp t.width m else m

/-- The mathematical value of `(int64_t)(IntT)i`: exact except for the
unsigned 64-bit case, which wraps back into the signed range. -/
def castBackI64 (t : IntTy) (i : Int) : Int :=
  let cv := castValue t i
  if t.signed then cv
  else if t.width == 64 then sInterp 64 cv else cv

/-- `Config::as_integer<IntT>`: assert the Int tag, then check
`(int64_t)(IntT)_u.i == _u.i` ("Integer out of range" otherwise) and
return `static_cast<IntT>(_u.i)` as its mathematical value. -/
def asInteger (t : IntTy) (c : Config) : Except CErr Int :=
  match assertType c .intT with
  | .error e => .error e
  | .ok _ =>
    match c.val with
    | .intV i =>
      if castBackI64 t i == i then .ok (castValue t i)
      else .error (.intOutOfRange c.whereStr)
    | _ => .error (.otherErr "" "unreachable")

/-- Result of `Config::as_float` (a C++ `float`): either the conversion
of the stored int64 or of the stored double, kept abstract. -/
inductive F32R where
  | ofI64 (i : Int)
  | ofF64 (f : FloatD)
deriving DecidableEq, Repr

/-- `Config::as_float`: an Int tag converts the integer, otherwise the
Float tag is asserted. -/
def asFloat (c : Config) : Except CErr F32R :=
  match c.val with
  | .intV i => .ok (.ofI64 i)
  | _ =>
    match assertType c .floatT with
    | .error e => .error e
    | .ok _ =>
      match c.val with
      | .floatV f => .ok (.ofF64 f)
      | _ => .error (.otherErr "" "unreachable")

/-- Result of `Config::as_double`: the stored double, or the conversion
of the stored int64. -/
inductive F64R where
  | exactD (f : FloatD)
  | ofI64 (i : Int)
deriving DecidableEq, Repr

/-- `Config::as_double`: an Int tag converts the integer, otherwise the
Float tag is asserted. -/
def asDouble (c : Config) : Except CErr F64R :=
  match c.val with
  | .intV i => .ok (.ofI64 i)
  | _ =>
    match assertType c .floatT with
    | .error e => .error e
    | .ok _ =>
      match c.val with
      | .floatV f => .ok (.exactD f)
      | _ => .error (.otherErr "" "unreachable")

/-- `Config::as_array` (the element list of the shared ConfigArray). -/
def asArray (c : Config) : Except CErr (List Config) :=
  match assertType c .arrayT with
  | .error e => .error e
  | .ok _ =>
    match c.val with
    | .arrV _ xs => .ok xs
    | _ => .error (.otherErr "" "unreachable")

/-- `Config::as_object` (the entry list of the shared ConfigObject). -/
def asObject (c : Config) : Except CErr (List EntryKV) :=
  match assertType c .objectT with
  | .error e => .error e
  | .ok _ =>
    match c.val with
    | .objV _ es => .ok es
    | _ => .error (.otherErr "" "unreachable")

/-! ## Object map operations

`ConfigObjectImpl` is a `std::map<std::string, ObjectEntry>`: entries are
kept sorted by key (lexicographic byte order); insertion order is recorded
separately in each entry's `nr` field. -/

/-- `map::find` on the entry list. -/
def findEntry : List EntryKV → Bytes → Option EntryKV
  | [], _ => none
  | e :: rest, k => if e.key == k then some e else findEntry rest k

/-- `std::map` insertion of a (new) key at its sorted position. -/
def mapInsert (k : Bytes) (e : EntryKV) : List EntryKV → List EntryKV
  | [] => [e]
  | e' :: rest =>
    if strLtB k e'.key then e :: e' :: rest
    else e' :: mapInsert k e rest

/-- Replace the entry stored under key `k` (which must be present). -/
def mapUpdate (k : Bytes) (f : EntryKV → EntryKV) : List EntryKV → List EntryKV
  | [] => []
  | e :: rest =>
    if e.key == k then f e :: rest
    else e :: mapUpdate k f rest

/-- `Config::has_key` (`as_object().count(key) != 0`). -/
def hasKey (c : Config) : Bytes → Except CErr Bool := fun k =>
  match asObject c with
  | .error e => .error e
  | .ok es => .ok (findEntry es k).isSome

/-- `Config::object_size`. -/
def objectSize (c : Config) : Except CErr Nat :=
  match asObject c with
  | .error e => .error e
  | .ok es => .ok es.length

/-- Build a Config back from updated object entries, keeping the shared
allocation id and all metadata (mutation happens through the shared
ConfigObject, so aliases of the same allocation would see it; the claims
under check only follow a single alias). -/
def withEntries (c : Config) (es : List EntryKV) : Config :=
  match c with
  | .mk (.objV sid _) d l cm => .mk (.objV sid es) d l cm
  | other => other

/-- `Config::operator=(Config&&)` (move assignment): the type and payload
are always taken from the source; the provenance pair is taken only when
the source has a document or a line; the comments block is taken only when
the source's `_comments` is non-null. -/
def assignMove (dst src : Config) : Config :=
  .mk src.val
     (if src.docOf.isSome || src.lineOf.isSome then src.docOf else dst.docOf)
     (if src.docOf.isSome || src.lineOf.isSome then src.lineOf else dst.lineOf)
     (match src.commsOf with
      | some cs => some cs
      | none => dst.commsOf)

/-- `const Config::operator[](const std::string&)`: a hit marks the entry
accessed and returns its value; a miss raises "Key not in object" with the
enclosing object's provenance. Returns the updated object alongside the
result (the accessed flag is `mutable`, shared through the allocation). -/
def opIndexConst (c : Config) (k : Bytes) : Except CErr (Config × Config) :=
  match asObject c with
  | .error e => .error e
  | .ok es =>
    match findEntry es k with
    | none => .error (.keyNotInObject c.whereStr k)
    | some e =>
      .ok (withEntries c (mapUpdate k (fun en => .mk en.key en.value en.nr true) es),
           e.value)

/-- Non-const `Config::operator[](const std::string&)`: a miss inserts a
fresh entry whose value is the BadLookup sentinel (carrying the enclosing
object's doc/line and the key) with `nr` set to the object's previous size
and the accessed flag left false; a hit marks the entry accessed. Returns
the updated object and the entry's value (the reference the C++ code
hands back). -/
def opIndexMut (c : Config) (k : Bytes) : Except CErr (Config × Config) :=
  match asObject c with
  | .error e => .error e
  | .ok es =>
    match findEntry es k with
    | some _ =>
      .ok (withEntries c (mapUpdate k (fun en => .mk en.key en.value en.nr true) es),
           (match findEntry es k with
            | some e => e.value
            | none => Config.uninitC))
    | none =>
      let bl : Config := .mk (.badLookup c.docOf c.lineOf k) none none none
      .ok (withEntries c (mapInsert k (.mk k bl (some es.length) false) es), bl)

/-- The statement `cfg[key] = value`: non-const `operator[]` followed by
move assignment through the returned reference, rewriting the entry in
place. -/
def setKey (c : Config) (k : Bytes) (v : Config) : Except CErr Config :=
  match asObject c with
  | .error e => .error e
  | .ok es =>
    match findEntry es k with
    | some _ =>
      .ok (withEntries c
        (mapUpdate k (fun en => .mk en.key (assignMove en.value v) en.nr true) es))
    | none =>
      let bl : Config := .mk (.badLookup c.docOf c.lineOf k) none none none
      .ok (withEntries c (mapInsert k (.mk k (assignMove bl v) (some es.length) false) es))

/-- `Config::push_back`. -/
def pushBack (c : Config) (v : Config) : Except CErr Config :=
  match c with
  | .mk (.arrV sid xs) d l cm => .ok (.mk (.arrV sid (xs ++ [v])) d l cm)
  | other => .error (.typeMismatch other.whereStr .arrayT other.typeOf)

/-- `Config::make_object` (asserts the Uninitialized tag). -/
def makeObject (c : Config) : Except CErr Config :=
  match c with
  | .mk .uninit d l cm => .ok (.mk (.objV none []) d l cm)
  | other => .error (.typeMismatch other.whereStr .uninitialized other.typeOf)

/-- `Config::make_array` (asserts the Uninitialized tag). -/
def makeArray (c : Config) : Except CErr Config :=
  match c with
  | .mk .uninit d l cm => .ok (.mk (.arrV none []) d l cm)
  | other => .error (.typeMismatch other.whereStr .uninitialized other.typeOf)

/-! ## deep_eq and check_dangling -/

/-- The C++ pointer-equality test on two shared allocations: true exactly
when both carry the same allocation id (`none` is a never-shared fresh
allocation, equal to nothing). -/
def sameAlloc : Option Nat → Option Nat → Bool
  | some i, some j => i == j
  | _, _ => false

mutual
/-- `Config::deep_eq`, translated branch by branch. Note the source's
array loop compares `a_array[i]` with `a_array[i]` — the element of `a`
with itself — which `deepEqArrSelf` reproduces faithfully. Fuel is
consumed per recursion step and per element walked; the budgets used
below amply cover the values compared. -/
def deepEq (fuel : Nat) (a b : Config) : Bool :=
  match fuel with
  | 0 => false
  | f + 1 =>
    if a.typeOf != b.typeOf then false
    else
      match a.val, b.val with
      | .nullV, _ => true
      | .boolV x, .boolV y => x == y
      | .intV x, .intV y => x == y
      | .floatV x, .floatV y => doubleEq x y
      | .strV x, .strV y => x == y
      | .objV sa ea, .objV sb eb =>
        if sameAlloc sa sb then true
        else if ea.length != eb.length then false
        else deepEqObj f ea eb
      | .arrV sa xs, .arrV sb ys =>
        if sameAlloc sa sb then true
        else if xs.length != ys.length then false
        else deepEqArrSelf f xs
      | _, _ => false
termination_by structural fuel

/-- The object loop of deep_eq: each key of `a` must be found in `b` with
a deep-equal value. -/
def deepEqObj (fuel : Nat) (ea eb : List EntryKV) : Bool :=
  match fuel, ea with
  | _, [] => true
  | 0, _ :: _ => false
  | f + 1, e :: rest =>
    match findEntry eb e.key with
    | none => false
    | some e2 => deepEq f e.value e2.value && deepEqObj f rest eb
termination_by structural fuel

/-- The array loop of deep_eq as written in the source: it walks `a`'s
elements comparing each with itself (`deep_eq(a_array[i], a_array[i])`). -/
def deepEqArrSelf (fuel : Nat) (xs : List Config) : Bool :=
  match fuel, xs with
  | _, [] => true
  | 0, _ :: _ => false
  | f + 1, x :: rest => deepEq f x x && deepEqArrSelf f rest
termination_by structural fuel
end

mutual
/-- `Config::check_dangling`: walk the tree, reporting (where, key) for
every object entry whose accessed flag is false — without recursing into
that entry's value — and recursing into the values of accessed entries
and of array elements. The warning list models the calls made to the
external CONFIGURU_ON_DANGLING sink, in order. Fuel is consumed per
recursion step and per element walked. -/
def checkDangling (fuel : Nat) (c : Config) : List (String × Bytes) :=
  match fuel with
  | 0 => []
  | f + 1 =>
    match c.val with
    | .objV _ es => cdEntries f es
    | .arrV _ xs => cdElems f xs
    | _ => []
termination_by structural fuel

/-- check_dangling's object loop. -/
def cdEntries (fuel : Nat) (es : List EntryKV) : List (String × Bytes) :=
  match fuel, es with
  | _, [] => []
  | 0, _ :: _ => []
  | f + 1, e :: rest =>
    (if e.accessed then checkDangling f e.value
     else [(e.value.whereStr, e.key)]) ++ cdEntries f rest
termination_by structural fuel

/-- check_dangling's array loop. -/
def cdElems (fuel : Nat) (xs : List Config) : List (String × Bytes) :=
  match fuel, xs with
  | _, [] => []
  | 0, _ :: _ => []
  | f + 1, x :: rest => checkDangling f x ++ cdElems f rest
termination_by structural fuel
end

/-! ## FormatOptions (the dialect configuration)

Field names follow the source, except `allow_macro`, which is rendered
`allow_include` here (the original name collides with a reserved word of
the verification toolchain). -/

/-- `configuru::FormatOptions`. -/
structure FormatOptions where
  indentation : Bytes
  enforce_indentation : Bool
  empty_file : Bool
  implicit_top_object : Bool
  implicit_top_array : Bool
  single_line_comments : Bool
  block_comments : Bool
  nesting_block_comments : Bool
  inf : Bool
  nan : Bool
  hexadecimal_integers : Bool
  binary_integers : Bool
  unary_plus : Bool
  array_omit_comma : Bool
  array_trailing_comma : Bool
  identifiers_keys : Bool
  object_separator_equal : Bool
  allow_space_before_colon : Bool
  omit_colon_before_object : Bool
  object_omit_comma : Bool
  object_trailing_comma : Bool
  object_duplicate_keys : Bool
  str_csharp_verbatim : Bool
  str_python_multiline : Bool
  str_32bit_unicode : Bool
  str_allow_tab : Bool
  allow_include : Bool
  write_comments : Bool
  sort_keys : Bool
deriving DecidableEq, Repr

/-- `FormatOptions::compact()`. -/
def FormatOptions.compact (o : FormatOptions) : Bool := o.indentation.isEmpty

/-- The default-constructed `FormatOptions` (the `CFG` dialect). -/
def CFG : FormatOptions where
  indentation := bytes "\t"
  enforce_indentation := true
  empty_file := false
  implicit_top_object := true
  implicit_top_array := true
  single_line_comments := true
  block_comments := true
  nesting_block_comments := true
  inf := true
  nan := true
  hexadecimal_integers := true
  binary_integers := true
  unary_plus := true
  array_omit_comma := true
  array_trailing_comma := true
  identifiers_keys := true
  object_separator_equal := false
  allow_space_before_colon := false
  omit_colon_before_object := false
  object_omit_comma := true
  object_trailing_comma := true
  object_duplicate_keys := false
  str_csharp_verbatim := true
  str_python_multiline := true
  str_32bit_unicode := true
  str_allow_tab := true
  allow_include := true
  write_comments := true
  sort_keys := false

/-- `make_json_options()` (the `JSON` dialect). -/
def JSON : FormatOptions where
  indentation := bytes "\t"
  enforce_indentation := false
  empty_file := false
  implicit_top_object := false
  implicit_top_array := false
  single_line_comments := false
  block_comments := false
  nesting_block_comments := false
  inf := false
  nan := false
  hexadecimal_integers := false
  binary_integers := false
  unary_plus := false
  array_omit_comma := false
  array_trailing_comma := false
  identifiers_keys := false
  object_separator_equal := false
  allow_space_before_colon := true
  omit_colon_before_object := false
  object_omit_comma := false
  object_trailing_comma := false
  object_duplicate_keys := false
  str_csharp_verbatim := false
  str_python_multiline := false
  str_32bit_unicode := false
  str_allow_tab := false
  allow_include := false
  write_comments := false
  sort_keys := false

/-! ## Parser state and primitive scanning -/

/-- The Parser's mutable state: byte cursor, line bookkeeping, the
expected-indentation counter, the owning document name (`_doc`), plus the
external collaborators of a parse session — the file-system oracle used
by #include (spec §1 treats file reads as an external interface) and the
per-session `ParseInfo::parsed_files` cache. -/
structure PSt where
  input : Bytes
  pos : Nat
  lineNr : Nat
  lineStart : Nat
  indent : Int
  docName : String
  fsys : List (String × Bytes)
  cache : List (String × Config)

/-- The `configuru::State` triple saved/restored by get_state/set_state. -/
structure SavedSt where
  pos : Nat
  lineNr : Nat
  lineStart : Nat
deriving DecidableEq, Repr

/-- `Parser::get_state`. -/
def getStateP (st : PSt) : SavedSt := ⟨st.pos, st.lineNr, st.lineStart⟩

/-- `Parser::set_state`. -/
def setStateP (st : PSt) (s : SavedSt) : PSt :=
  { st with pos := s.pos, lineNr := s.lineNr, lineStart := s.lineStart }

/-- `_ptr[i]`: the byte at offset `i` from the cursor, NUL past the end
(C-string termination). -/
def byteAt (st : PSt) (i : Nat) : Char := st.input.getD (st.pos + i) nulChar

/-- `_ptr += n`. -/
def advanceP (st : PSt) (n : Nat) : PSt := { st with pos := st.pos + n }

/-- Consume a newline byte: advance, bump the line counter, remember the
line start. -/
def newlineP (st : PSt) (width : Nat) : PSt :=
  { st with pos := st.pos + width, lineNr := st.lineNr + 1,
            lineStart := st.pos + width }

/-- A `configuru::ParseError`: document name, 1-indexed line and column,
and the message (description plus the rendered source snippet with the
caret, as built by `Parser::throw_error`). -/
structure PErr where
  filename : String
  lineNr : Nat
  colNr : Nat
  msg : String
deriving DecidableEq, Repr

/-- `strncmp(_ptr + off, s, s.size()) == 0`. -/
def matchAt (st : PSt) (off : Nat) : Bytes → Bool
  | [] => true
  | c :: rest => byteAt st off == c && matchAt st (off + 1) rest

/-- Length of the current line from a given position (stops at NUL, CR or
LF), as scanned by `Parser::end_of_line`. -/
def eolOffset : Bytes → Nat
  | [] => 0
  | c :: rest =>
    if c == '\r' || c == '\n' || c == nulChar then 0 else 1 + eolOffset rest

/-- Render bytes with tabs expanded to four spaces (first line of the
throw_error orientation snippet). -/
def expandTabs : Bytes → String
  | [] => ""
  | c :: rest =>
    (if c == '\t' then "    " else String.singleton c) ++ expandTabs rest

/-- Render the caret padding (second line of the orientation snippet): a
tab turns into four spaces, any other byte into one space. -/
def caretPad : Bytes → String
  | [] => ""
  | c :: rest => (if c == '\t' then "    " else " ") ++ caretPad rest

/-- `Parser::column()`. -/
def columnP (st : PSt) : Nat := st.pos - st.lineStart + 1

/-- `Parser::throw_error`: build the ParseError with the description, the
current line rendered with expanded tabs, and a caret under the offending
column. -/
def throwErr (st : PSt) (desc : String) : PErr :=
  let fromSol := st.input.drop st.lineStart
  let lineBytes := fromSol.take (eolOffset fromSol)
  let beforeBytes := fromSol.take (st.pos - st.lineStart)
  { filename := st.docName, lineNr := st.lineNr, colNr := columnP st,
    msg := desc ++ "\n" ++ expandTabs lineBytes ++ "\n" ++ caretPad beforeBytes ++ "^" }

/-- Error reported on fuel exhaustion; all fuel budgets used below are
large enough that no reachable evaluation produces it. -/
def fuelErr (st : PSt) : PErr :=
  { filename := st.docName, lineNr := st.lineNr, colNr := columnP st,
    msg := "model: out of fuel" }

/-- `configuru::quote(char)`. The apostrophe-wrapped forms of the C++
version are rendered as bracketed names here; no claim inspects these
message fragments. -/
def quoteC (c : Char) : String :=
  if c == nulChar then "<eof>"
  else if c == ' ' then "<space>"
  else if c == '\n' then "<newline>"
  else if c == '\t' then "<tab>"
  else if c == '\r' then "<cr>"
  else if c == Char.ofNat 8 then "<backspace>"
  else String.singleton c

/-- `Parser::throw_indentation_error`: only raises when the dialect
enforces indentation; otherwise the parse continues. The source's
parameter names are swapped relative to their printf slots, so the
rendered message reads "expected <first-arg> tabs, found <second-arg>". -/
def throwIndentationError (opts : FormatOptions) (st : PSt)
    (firstArg secondArg : Int) : Except PErr Unit :=
  if opts.enforce_indentation then
    .error (throwErr st
      ("Bad indentation: expected " ++ toString firstArg ++ " tabs, found "
        ++ toString secondArg))
  else .ok ()

/-- IDENT_STARTERS: underscore and ASCII letters. -/
def identStarter (c : Char) : Bool :=
  c == '_' || (97 ≤ c.toNat && c.toNat ≤ 122) || (65 ≤ c.toNat && c.toNat ≤ 90)

/-- IDENT_CHARS: IDENT_STARTERS plus ASCII digits. -/
def identChar (c : Char) : Bool :=
  identStarter c || (48 ≤ c.toNat && c.toNat ≤ 57)

/-- `Parser::is_reserved_identifier`. -/
def isReservedIdent (st : PSt) : Bool :=
  if matchAt st 0 (bytes "true") || matchAt st 0 (bytes "null") then
    !identChar (byteAt st 4)
  else if matchAt st 0 (bytes "false") then
    !identChar (byteAt st 5)
  else false

/-! ## skip_white -/

/-- Length of a `//` comment from its start: everything up to (not
including) the next LF or the end of input. -/
def scanToNewline : Bytes → Nat
  | [] => 0
  | c :: rest => if c == '\n' then 0 else 1 + scanToNewline rest

/-- The `/* ... */` scanning loop of skip_white, with its nesting
counter. `savedSt` is the state at the opening `/*`, used for the
non-ending-comment diagnostic. -/
def blockComment (opts : FormatOptions) (fuel : Nat) (savedSt : PSt)
    (nesting : Nat) (st : PSt) : Except PErr PSt :=
  match fuel with
  | 0 => .error (fuelErr st)
  | f + 1 =>
    let c0 := byteAt st 0
    if c0 == nulChar then
      .error (throwErr savedSt "Non-ending /* comment")
    else if c0 == '/' && byteAt st 1 == '*' then
      let st' := advanceP st 2
      if !opts.nesting_block_comments then
        .error (throwErr st' "Nesting comments (/* /* */ */) forbidden.")
      else blockComment opts f savedSt (nesting + 1) st'
    else if c0 == '*' && byteAt st 1 == '/' then
      let st' := advanceP st 2
      if nesting - 1 == 0 then .ok st'
      else blockComment opts f savedSt (nesting - 1) st'
    else if c0 == '\n' then
      blockComment opts f savedSt nesting (newlineP st 1)
    else blockComment opts f savedSt nesting (advanceP st 1)

/-- The body of `Parser::skip_white`. Accumulates the out-parameters:
`outInd` is the indentation depth of the last line touched (−1 when the
line is "dirty"), `coms` the captured comments, `foundNl` the local
found_newline flag, `startPos` the position on entry (to compute the
did-skip result). -/
def skipWhiteLoop (opts : FormatOptions) (fuel : Nat) (breakOnNl : Bool)
    (startPos : Nat) (outInd : Int) (foundNl : Bool) (coms : List Bytes)
    (st : PSt) : Except PErr ((Bool × Int × List Bytes) × PSt) :=
  match fuel with
  | 0 => .error (fuelErr st)
  | f + 1 =>
    let c := byteAt st 0
    if c == '\n' then
      let st' := newlineP st 1
      if breakOnNl then .ok ((true, 0, coms), st')
      else skipWhiteLoop opts f breakOnNl startPos 0 true coms st'
    else if c == '\r' then
      if byteAt st 1 == '\n' then
        let st' := newlineP st 2
        if breakOnNl then .ok ((true, 0, coms), st')
        else skipWhiteLoop opts f breakOnNl startPos 0 true coms st'
      else .error (throwErr st "CR with no LF. \\r only allowed before \\n.")
    else if !opts.indentation.isEmpty && matchAt st 0 opts.indentation then
      let st' := advanceP st opts.indentation.length
      if opts.enforce_indentation && opts.indentation == bytes "\t"
          && outInd == -1 then
        .error (throwErr st' "Tabs should only occur on the start of a line!")
      else skipWhiteLoop opts f breakOnNl startPos (outInd + 1) foundNl coms st'
    else if c == '\t' then
      let st' := advanceP st 1
      if opts.enforce_indentation && outInd == -1 then
        .error (throwErr st' "Tabs should only occur on the start of a line!")
      else skipWhiteLoop opts f breakOnNl startPos (outInd + 1) foundNl coms st'
    else if c == ' ' then
      if foundNl && opts.enforce_indentation then
        if opts.indentation == bytes "\t" then
          .error (throwErr st
            "Found a space at beginning of a line. Indentation must be done using tabs!")
        else
          .error (throwErr st
            ("Indentation should be a multiple of "
              ++ toString opts.indentation.length ++ " spaces."))
      else skipWhiteLoop opts f breakOnNl startPos (-1) foundNl coms (advanceP st 1)
    else if c == '/' && byteAt st 1 == '/' then
      if !opts.single_line_comments then
        .error (throwErr st "Single line comments forbidden.")
      else
        let n := scanToNewline (st.input.drop st.pos)
        let com := (st.input.drop st.pos).take n
        let st' := advanceP st n
        if breakOnNl then .ok ((true, 0, coms ++ [com]), st')
        else skipWhiteLoop opts f breakOnNl startPos 0 foundNl (coms ++ [com]) st'
    else if c == '/' && byteAt st 1 == '*' then
      if !opts.block_comments then
        .error (throwErr st "Block comments forbidden.")
      else
        match blockComment opts f st 1 (advanceP st 2) with
        | .error e => .error e
        | .ok st' =>
          let com := (st.input.drop st.pos).take (st'.pos - st.pos)
          if breakOnNl then .ok ((true, -1, coms ++ [com]), st')
          else skipWhiteLoop opts f breakOnNl startPos (-1) foundNl (coms ++ [com]) st'
    else
      if startPos == st.pos then .ok ((false, -1, coms), st)
      else .ok ((true, outInd, coms), st)

/-- `Parser::skip_white`. -/
def skipWhite (opts : FormatOptions) (fuel : Nat) (breakOnNl : Bool)
    (st : PSt) : Except PErr ((Bool × Int × List Bytes) × PSt) :=
  skipWhiteLoop opts fuel breakOnNl st.pos 0 false [] st

/-- `Parser::skip_white_ignore_comments` (returns only did-skip). -/
def skipWhiteIC (opts : FormatOptions) (fuel : Nat) (st : PSt) :
    Except PErr (Bool × PSt) :=
  match skipWhite opts fuel false st with
  | .error e => .error e
  | .ok ((didSkip, _, _), st') => .ok (didSkip, st')

/-- Append captured comments to a Config's pre-comments (allocating the
comments block only when there is something to append, like the C++
`comments()` accessor). -/
def appendPreComs (c : Config) (coms : List Bytes) : Config :=
  if coms.isEmpty then c
  else
    match c with
    | .mk v d l cm =>
      let cur := cm.getD CommentsV.emptyV
      .mk v d l (some { cur with preComs := cur.preComs ++ coms })

/-- Append captured comments to a Config's post-comments. -/
def appendPostComs (c : Config) (coms : List Bytes) : Config :=
  if coms.isEmpty then c
  else
    match c with
    | .mk v d l cm =>
      let cur := cm.getD CommentsV.emptyV
      .mk v d l (some { cur with postComs := cur.postComs ++ coms })

/-- `Parser::skip_pre_white` (comments become the value's prefix block;
the indentation of the last line is reported). -/
def skipPreWhite (opts : FormatOptions) (fuel : Nat) (c : Config)
    (st : PSt) : Except PErr ((Config × Int) × PSt) :=
  match skipWhite opts fuel false st with
  | .error e => .error e
  | .ok ((_, ind, coms), st') => .ok ((appendPreComs c coms, ind), st')

/-- `Parser::skip_post_white` (break on newline; comments become the
value's postfix block). -/
def skipPostWhite (opts : FormatOptions) (fuel : Nat) (c : Config)
    (st : PSt) : Except PErr ((Config × Bool) × PSt) :=
  match skipWhite opts fuel true st with
  | .error e => .error e
  | .ok ((didSkip, _, coms), st') => .ok ((appendPostComs c coms, didSkip), st')

/-! ## Number lexing (the C library calls and parse_finite_number) -/

/-- ASCII decimal digit test. -/
def isDigitB (c : Char) : Bool := 48 ≤ c.toNat && c.toNat ≤ 57

/-- ASCII hexadecimal digit test. -/
def isHexDigitB (c : Char) : Bool :=
  isDigitB c || (97 ≤ c.toNat && c.toNat ≤ 102) || (65 ≤ c.toNat && c.toNat ≤ 70)

/-- Binary digit test. -/
def isBinDigitB (c : Char) : Bool := c == '0' || c == '1'

/-- Base-10 value of a digit string. -/
def decValue (l : Bytes) : Nat := l.foldl (fun a c => 10 * a + (c.toNat - 48)) 0

/-- Hexadecimal digit value (correct table, used for the strtoull model). -/
def hexDigitVal (c : Char) : Nat :=
  if isDigitB c then c.toNat - 48
  else if 97 ≤ c.toNat && c.toNat ≤ 102 then c.toNat - 97 + 10
  else if 65 ≤ c.toNat && c.toNat ≤ 70 then c.toNat - 65 + 10
  else 0

/-- Base-16 value of a hex-digit string. -/
def hexValue (l : Bytes) : Nat := l.foldl (fun a c => 16 * a + hexDigitVal c) 0

/-- Base-2 value of a binary-digit string. -/
def binValue (l : Bytes) : Nat := l.foldl (fun a c => 2 * a + (c.toNat - 48)) 0

/-- `strtoll(s, &end, 10)` at parse_finite_number's integer call site,
where the subject cannot begin with whitespace or a sign (both consumed
by the caller): the longest digit prefix is converted, clamping to
LLONG_MAX on overflow. Returns (value, characters consumed). -/
def strtollDec (l : Bytes) : Int × Nat :=
  let ds := l.takeWhile isDigitB
  (min (decValue ds : Int) (2 ^ 63 - 1), ds.length)

/-- `strtoull(s, &end, 16)` after the caller consumed "0x": per the C
conversion rules the subject may itself start with another optional
0x/0X prefix; the longest hex-digit prefix is converted, clamping to
ULLONG_MAX on overflow. Returns (value, characters consumed). -/
def strtoullHex (l : Bytes) : Nat × Nat :=
  match l with
  | '0' :: x :: rest =>
    if (x == 'x' || x == 'X') &&
        (match rest with | c :: _ => isHexDigitB c | [] => false) then
      let ds := rest.takeWhile isHexDigitB
      (min (hexValue ds) (2 ^ 64 - 1), 2 + ds.length)
    else
      let ds := l.takeWhile isHexDigitB
      (min (hexValue ds) (2 ^ 64 - 1), ds.length)
  | _ =>
    let ds := l.takeWhile isHexDigitB
    (min (hexValue ds) (2 ^ 64 - 1), ds.length)

/-- `strtoull(s, &end, 2)` after the caller consumed "0b". -/
def strtoullBin (l : Bytes) : Nat × Nat :=
  let ds := l.takeWhile isBinDigitB
  (min (binValue ds) (2 ^ 64 - 1), ds.length)

/-- `(int64_t)u` for an unsigned 64-bit value `u < 2 ^ 64`. -/
def toI64 (u : Nat) : Int := sInterp 64 (u : Int)

/-- Characters consumed by `strtod` at parse_finite_number's float call
site (the subject starts with a digit or a point, never whitespace, a
sign, inf/nan or a hex float): digits, an optional fraction, and an
optional exponent that only counts when introduced by e/E with at least
one digit. -/
def strtodSpan (l : Bytes) : Nat :=
  let ip := l.takeWhile isDigitB
  let rest1 := l.drop ip.length
  let fracLen :=
    match rest1 with
    | '.' :: r => 1 + (r.takeWhile isDigitB).length
    | _ => 0
  if ip.length == 0 && fracLen ≤ 1 then 0
  else
    let rest2 := rest1.drop fracLen
    let expLen :=
      match rest2 with
      | e :: r =>
        if e == 'e' || e == 'E' then
          match r with
          | s :: r2 =>
            if s == '+' || s == '-' then
              if (r2.takeWhile isDigitB).length > 0 then
                2 + (r2.takeWhile isDigitB).length
              else 0
            else
              if (r.takeWhile isDigitB).length > 0 then
                1 + (r.takeWhile isDigitB).length
              else 0
          | [] => 0
        else 0
      | [] => 0
    ip.length + fracLen + expLen

/-- `Parser::parse_finite_number`, filling `dst` through move assignment
exactly as the C++ `dst = ...` statements do. -/
def parseFiniteNumber (opts : FormatOptions) (fuel : Nat) (dst : Config)
    (st : PSt) : Except PErr (Config × PSt) := do
  let mut sign : Int := 1
  let mut st := st
  if byteAt st 0 == '+' then
    if !opts.unary_plus then
      throw (throwErr st "Prefixing numbers with + is forbidden.")
    st := advanceP st 1
    let (_, st') ← skipWhiteIC opts fuel st
    st := st'
  if byteAt st 0 == '-' then
    st := advanceP st 1
    let (_, st') ← skipWhiteIC opts fuel st
    st := st'
    sign := -1
  if byteAt st 0 == '+' || byteAt st 0 == '-' then
    throw (throwErr st "Duplicate sign")
  if byteAt st 0 == '0' && byteAt st 1 == 'x' then
    if !opts.hexadecimal_integers then
      throw (throwErr st "Hexadecimal numbers forbidden.")
    st := advanceP st 2
    let (v, n) := strtoullHex (st.input.drop st.pos)
    let st' := advanceP st n
    if n == 0 then
      throw (throwErr st' "Missing hexaxdecimal digits after 0x")
    return (assignMove dst (Config.ofInt (sign * toI64 v)), st')
  if byteAt st 0 == '0' && byteAt st 1 == 'b' then
    if !opts.binary_integers then
      throw (throwErr st "Binary numbers forbidden.")
    st := advanceP st 2
    let (v, n) := strtoullBin (st.input.drop st.pos)
    let st' := advanceP st n
    if n == 0 then
      throw (throwErr st' "Missing binary digits after 0b")
    return (assignMove dst (Config.ofInt (sign * toI64 v)), st')
  let rest := st.input.drop st.pos
  let digitScan := (rest.takeWhile isDigitB).length
  let after := byteAt st digitScan
  if after == '.' || after == 'e' || after == 'E' then
    let n := strtodSpan rest
    let st' := advanceP st n
    if n == 0 then
      throw (throwErr st' "Invalid float")
    let lit := FloatD.lit (rest.take n)
    let v := if sign == -1 then FloatD.negF lit else lit
    return (assignMove dst (Config.ofFloat v), st')
  else
    let (v, n) := strtollDec rest
    let st' := advanceP st n
    if n == 0 then
      throw (throwErr st' "Invalid integer")
    if byteAt st 0 == '0' && v != 0 then
      throw (throwErr st' "Integer may not start with a zero")
    return (assignMove dst (Config.ofInt (sign * v)), st')

/-! ## parse_hex, encode_utf8 and parse_string -/

/-- The digit loop of `Parser::parse_hex`. The letter branches add
`c - 'a'` and `c - 'A'` without the +10 offset, exactly as the source
does. A non-hex byte raises, quoting `_ptr[0]` (also as in the source,
which reports the first byte rather than the offending one). -/
def parseHexLoop (st : PSt) (i : Nat) (remaining : Nat) (acc : Nat) :
    Except PErr Nat :=
  match remaining with
  | 0 => .ok acc
  | n + 1 =>
    let c := byteAt st i
    let acc := acc * 16
    if isDigitB c then parseHexLoop st (i + 1) n (acc + (c.toNat - 48))
    else if 97 ≤ c.toNat && c.toNat ≤ 102 then
      parseHexLoop st (i + 1) n (acc + (c.toNat - 97))
    else if 65 ≤ c.toNat && c.toNat ≤ 70 then
      parseHexLoop st (i + 1) n (acc + (c.toNat - 65))
    else
      .error (throwErr st ("Expected hexadecimal digit, got " ++ quoteC (byteAt st 0)))

/-- `Parser::parse_hex(count)`. -/
def parseHex (st : PSt) (count : Nat) : Except PErr (Nat × PSt) :=
  match parseHexLoop st 0 count 0 with
  | .error e => .error e
  | .ok v => .ok (v, advanceP st count)

/-- `configuru::encode_utf8`: append the UTF-8 bytes of code point `c`,
returning the extended string and the number of bytes written (0 on
error). -/
def encodeUtf8 (dst : Bytes) (c : Nat) : Bytes × Nat :=
  if c ≤ 0x7F then
    (dst ++ [Char.ofNat c], 1)
  else if c ≤ 0x7FF then
    (dst ++ [Char.ofNat (0xC0 ||| (c >>> 6)),
             Char.ofNat (0x80 ||| (c &&& 0x3F))], 2)
  else if c ≤ 0xFFFF then
    (dst ++ [Char.ofNat (0xE0 ||| (c >>> 12)),
             Char.ofNat (0x80 ||| ((c >>> 6) &&& 0x3F)),
             Char.ofNat (0x80 ||| (c &&& 0x3F))], 3)
  else if c ≤ 0x1FFFFF then
    (dst ++ [Char.ofNat (0xF0 ||| (c >>> 18)),
             Char.ofNat (0x80 ||| ((c >>> 12) &&& 0x3F)),
             Char.ofNat (0x80 ||| ((c >>> 6) &&& 0x3F)),
             Char.ofNat (0x80 ||| (c &&& 0x3F))], 4)
  else if c ≤ 0x3FFFFFF then
    (dst ++ [Char.ofNat (0xF8 ||| (c >>> 24)),
             Char.ofNat ((0x80 ||| (c >>> 18)) &&& 0xFF),
             Char.ofNat (0x80 ||| ((c >>> 12) &&& 0x3F)),
             Char.ofNat (0x80 ||| ((c >>> 6) &&& 0x3F)),
             Char.ofNat (0x80 ||| (c &&& 0x3F))], 5)
  else if c ≤ 0x7FFFFFFF then
    (dst ++ [Char.ofNat (0xFC ||| (c >>> 30)),
             Char.ofNat (0x80 ||| ((c >>> 24) &&& 0x3F)),
             Char.ofNat (0x80 ||| ((c >>> 18) &&& 0x3F)),
             Char.ofNat (0x80 ||| ((c >>> 12) &&& 0x3F)),
             Char.ofNat (0x80 ||| ((c >>> 6) &&& 0x3F)),
             Char.ofNat (0x80 ||| (c &&& 0x3F))], 6)
  else (dst, 0)

/-- The loop of the C#-style `@"..."` verbatim string form. `savedSt` is
the state at the `@`, used by the unterminated-string diagnostic. -/
def csharpLoop (fuel : Nat) (savedSt : PSt) (acc : Bytes) (st : PSt) :
    Except PErr (Bytes × PSt) :=
  match fuel with
  | 0 => .error (fuelErr st)
  | f + 1 =>
    let c := byteAt st 0
    if c == nulChar then
      .error (throwErr savedSt "Unterminated verbatim string")
    else if c == '\n' then
      .error (throwErr st "Newline in verbatim string")
    else if c == '"' && byteAt st 1 == '"' then
      csharpLoop f savedSt (acc ++ ['"']) (advanceP st 2)
    else if c == '"' then
      .ok (acc, advanceP st 1)
    else
      csharpLoop f savedSt (acc ++ [c]) (advanceP st 1)

/-- The loop of the Python-style `"""..."""` multiline string form.
`startPos` is the position just after the opening quotes; the result is
the raw slice up to the closing quotes. -/
def pythonLoop (fuel : Nat) (savedSt : PSt) (startPos : Nat) (st : PSt) :
    Except PErr (Bytes × PSt) :=
  match fuel with
  | 0 => .error (fuelErr st)
  | f + 1 =>
    if byteAt st 0 == nulChar || byteAt st 1 == nulChar
        || byteAt st 2 == nulChar then
      .error (throwErr savedSt "Unterminated multiline string")
    else if byteAt st 0 == '"' && byteAt st 1 == '"' && byteAt st 2 == '"'
        && byteAt st 3 != '"' then
      .ok ((st.input.drop startPos).take (st.pos - startPos), advanceP st 3)
    else if byteAt st 0 == '\n' then
      pythonLoop f savedSt startPos (newlineP st 1)
    else
      pythonLoop f savedSt startPos (advanceP st 1)

/-- The escape-processing loop of the ordinary quoted-string form.
`savedSt` is the state at the opening quote. -/
def quotedLoop (opts : FormatOptions) (fuel : Nat) (savedSt : PSt)
    (acc : Bytes) (st : PSt) : Except PErr (Bytes × PSt) :=
  match fuel with
  | 0 => .error (fuelErr st)
  | f + 1 =>
    let c := byteAt st 0
    if c == nulChar then
      .error (throwErr savedSt "Unterminated string")
    else if c == '"' then
      .ok (acc, advanceP st 1)
    else if c == '\n' then
      .error (throwErr st "Newline in string")
    else if c == '\t' && !opts.str_allow_tab then
      .error (throwErr st "Un-escaped tab not allowed in string")
    else if c == '\\' then
      let st := advanceP st 1
      let e := byteAt st 0
      if e == '"' then quotedLoop opts f savedSt (acc ++ ['"']) (advanceP st 1)
      else if e == '\\' then quotedLoop opts f savedSt (acc ++ ['\\']) (advanceP st 1)
      else if e == '/' then quotedLoop opts f savedSt (acc ++ ['/']) (advanceP st 1)
      else if e == 'b' then
        quotedLoop opts f savedSt (acc ++ [Char.ofNat 8]) (advanceP st 1)
      else if e == 'f' then
        quotedLoop opts f savedSt (acc ++ [Char.ofNat 12]) (advanceP st 1)
      else if e == 'n' then quotedLoop opts f savedSt (acc ++ ['\n']) (advanceP st 1)
      else if e == 'r' then quotedLoop opts f savedSt (acc ++ ['\r']) (advanceP st 1)
      else if e == 't' then quotedLoop opts f savedSt (acc ++ ['\t']) (advanceP st 1)
      else if e == 'u' then
        let st := advanceP st 1
        match parseHex st 4 with
        | .error er => .error er
        | .ok (unicode, st') =>
          let (acc', n) := encodeUtf8 acc unicode
          if n == 0 then .error (throwErr st' "Bad unicode codepoint")
          else quotedLoop opts f savedSt acc' st'
      else if e == 'U' then
        if !opts.str_32bit_unicode then
          .error (throwErr st "\\U 32 bit unicodes forbidden.")
        else
          let st := advanceP st 1
          match parseHex st 8 with
          | .error er => .error er
          | .ok (unicode, st') =>
            let (acc', n) := encodeUtf8 acc unicode
            if n == 0 then .error (throwErr st' "Bad unicode codepoint")
            else quotedLoop opts f savedSt acc' st'
      else
        .error (throwErr st ("Unknown escape character " ++ quoteC e))
    else
      quotedLoop opts f savedSt (acc ++ [c]) (advanceP st 1)

/-- `Parser::parse_string` over its three string forms. -/
def parseStringF (opts : FormatOptions) (fuel : Nat) (st : PSt) :
    Except PErr (Bytes × PSt) :=
  let savedSt := st
  if byteAt st 0 == '@' then
    if !opts.str_csharp_verbatim then
      .error (throwErr st "C# @-style verbatim strings forbidden.")
    else
      let st := advanceP st 1
      if byteAt st 0 == '"' then csharpLoop fuel savedSt [] (advanceP st 1)
      else .error (throwErr st ("Expected " ++ quoteC '"'))
  else if byteAt st 0 != '"' then
    .error (throwErr st "Quote (\") expected")
  else if byteAt st 1 == '"' && byteAt st 2 == '"' then
    if !opts.str_python_multiline then
      .error (throwErr st "Python \"\"\"-style multiline strings forbidden.")
    else
      let st := advanceP st 3
      pythonLoop fuel savedSt st.pos st
  else
    quotedLoop opts fuel savedSt [] (advanceP st 1)

/-! ## The recursive-descent grammar -/

/-- `Config::operator=(const Config&)` (copy assignment): type and
payload from the source; if the source has a document, its provenance
pair is copied; otherwise if it has a line, the document is cleared and
the line copied; otherwise the destination keeps its own; comments are
copied when the source has a block. -/
def assignCopy (dst src : Config) : Config :=
  .mk src.val
     (if src.docOf.isSome then src.docOf
      else if src.lineOf.isSome then none
      else dst.docOf)
     (if src.docOf.isSome || src.lineOf.isSome then src.lineOf else dst.lineOf)
     (match src.commsOf with
      | some cs => some cs
      | none => dst.commsOf)

/-- `Parser::tag` (records the document and current line on a value). -/
def tagC (c : Config) (st : PSt) : Config :=
  match c with
  | .mk v _ _ cm => .mk v (some st.docName) (some st.lineNr) cm

/-- The `container.comments().pre_end_brace = value.comments().prefix`
assignment used when a closing brace is reached. -/
def setEndBraceComs (c : Config) (coms : List Bytes) : Config :=
  match c with
  | .mk v d l cm =>
    let cur := cm.getD CommentsV.emptyV
    .mk v d l (some { cur with endBraceComs := coms })

/-- `array_size()` of a value known to hold an array (call sites in
top_level operate on the array built by parse_array_contents). -/
def arrLen (c : Config) : Nat :=
  match c.val with
  | .arrV _ xs => xs.length
  | _ => 0

/-- `ret[0]` of a non-empty array value (top_level's single-value
collapse). -/
def arrGet0 (c : Config) : Config :=
  match c.val with
  | .arrV _ (x :: _) => x
  | _ => Config.uninitC

/-- Association lookup keyed by strings (std::unordered_map::find on the
include cache, and the file-system oracle). -/
def lookupStr {α : Type} : List (String × α) → String → Option α
  | [], _ => none
  | (k, v) :: rest, key => if k == key then some v else lookupStr rest key

/-- `my_path.substr(0, my_path.find_last_of('/') + 1)`: the directory
part of a path, including the slash, when there is one. -/
def dirPre (s : List Char) : Option (List Char) :=
  match s.reverse.findIdx? (fun c => c == '/') with
  | none => none
  | some i => some (s.take (s.length - i))

/-- The include-path scanning loop of `Parser::parse_macro`. -/
def includePathLoop (fuel : Nat) (savedSt : PSt) (terminator : Char)
    (acc : Bytes) (st : PSt) : Except PErr (Bytes × PSt) :=
  match fuel with
  | 0 => .error (fuelErr st)
  | f + 1 =>
    let c := byteAt st 0
    if c == nulChar then .error (throwErr savedSt "Unterminated include path")
    else if c == terminator then .ok (acc, advanceP st 1)
    else if c == '\n' then .error (throwErr st "Newline in string")
    else includePathLoop f savedSt terminator (acc ++ [c]) (advanceP st 1)

mutual
/-- `Parser::parse_value`: skip leading whitespace attaching prefix
comments, tag the value, run the (dead-in-practice) value-indentation
check, dispatch on the first byte, then skip trailing whitespace
attaching postfix comments; the returned flag is
`out_did_skip_postwhites`. -/
def parseValue (opts : FormatOptions) (fuel : Nat) (dst : Config)
    (st : PSt) : Except PErr ((Config × Bool) × PSt) :=
  match fuel with
  | 0 => .error (fuelErr st)
  | f + 1 => do
    let ((dst, lineInd), st) ← skipPreWhite opts f dst st
    let dst := tagC dst st
    if lineInd ≥ 0 && st.indent - 1 != lineInd then
      throwIndentationError opts st (st.indent - 1) lineInd
    let (dst, st) ← parseValueCore opts f dst st
    let ((dst, didSkip), st) ← skipPostWhite opts f dst st
    pure ((dst, didSkip), st)
termination_by structural fuel

/-- The dispatch of parse_value on the first byte of the value. -/
def parseValueCore (opts : FormatOptions) (fuel : Nat) (dst : Config)
    (st : PSt) : Except PErr (Config × PSt) :=
  match fuel with
  | 0 => .error (fuelErr st)
  | f + 1 =>
    let c := byteAt st 0
    if c == '"' || c == '@' then do
      let (s, st) ← parseStringF opts f st
      pure (assignMove dst (Config.ofStr s), st)
    else if c == 'n' then
      if !matchAt st 1 (bytes "ull") then .error (throwErr st "Expected null")
      else if identChar (byteAt st 4) then .error (throwErr st "Expected null")
      else .ok (assignMove dst Config.ofNull, advanceP st 4)
    else if c == 't' then
      if !matchAt st 1 (bytes "rue") then .error (throwErr st "Expected true")
      else if identChar (byteAt st 4) then .error (throwErr st "Expected true")
      else .ok (assignMove dst (Config.ofBool true), advanceP st 4)
    else if c == 'f' then
      if !matchAt st 1 (bytes "alse") then .error (throwErr st "Expected false")
      else if identChar (byteAt st 5) then .error (throwErr st "Expected false")
      else .ok (assignMove dst (Config.ofBool false), advanceP st 5)
    else if c == '{' then parseObject opts f dst st
    else if c == '[' then parseArray opts f dst st
    else if c == '#' then parseInclude opts f dst st
    else if c == '+' || c == '-' || c == '.' || isDigitB c then
      if c == '-' && matchAt st 1 (bytes "inf") then
        if identChar (byteAt st 4) then .error (throwErr st "Expected -inf")
        else if !opts.inf then .error (throwErr st "infinity forbidden.")
        else .ok (assignMove dst (Config.ofFloat .infN), advanceP st 4)
      else if c == '+' && matchAt st 1 (bytes "inf") then
        if identChar (byteAt st 4) then .error (throwErr st "Expected +inf")
        else if !opts.inf then .error (throwErr st "infinity forbidden.")
        else .ok (assignMove dst (Config.ofFloat .infP), advanceP st 4)
      else if c == '+' && matchAt st 1 (bytes "NaN") then
        if identChar (byteAt st 4) then .error (throwErr st "Expected +NaN")
        else if !opts.nan then .error (throwErr st "NaN (Not a Number) forbidden.")
        else .ok (assignMove dst (Config.ofFloat .nanQ), advanceP st 4)
      else parseFiniteNumber opts f dst st
    else .error (throwErr st "Expected value")
termination_by structural fuel

/-- `Parser::parse_array`: brackets around parse_array_contents, with the
indentation counter raised inside. -/
def parseArray (opts : FormatOptions) (fuel : Nat) (dst : Config)
    (st : PSt) : Except PErr (Config × PSt) :=
  match fuel with
  | 0 => .error (fuelErr st)
  | f + 1 => do
    let savedSt := getStateP st
    if byteAt st 0 != '[' then throw (throwErr st ("Expected " ++ quoteC '['))
    let st := advanceP st 1
    let st := { st with indent := st.indent + 1 }
    let (dst, st) ← parseArrayContents opts f dst st
    let st := { st with indent := st.indent - 1 }
    if byteAt st 0 == ']' then pure (dst, advanceP st 1)
    else throw (throwErr (setStateP st savedSt) "Non-terminated array")
termination_by structural fuel

/-- `Parser::parse_array_contents`: make the array and run the element
loop. -/
def parseArrayContents (opts : FormatOptions) (fuel : Nat) (dst : Config)
    (st : PSt) : Except PErr (Config × PSt) :=
  match fuel with
  | 0 => .error (fuelErr st)
  | f + 1 =>
    match makeArray dst with
    | .error _ => .error (throwErr st "model: make_array on initialized value")
    | .ok dst => arrayLoop opts f dst [] st
termination_by structural fuel

/-- The element loop of parse_array_contents. `nextPre` is the
`next_prefix_comments` buffer swapped into each new element. -/
def arrayLoop (opts : FormatOptions) (fuel : Nat) (array : Config)
    (nextPre : List Bytes) (st : PSt) : Except PErr (Config × PSt) :=
  match fuel with
  | 0 => .error (fuelErr st)
  | f + 1 => do
    let value0 :=
      if nextPre.isEmpty then Config.uninitC
      else Config.mk .uninit none none
        (some { CommentsV.emptyV with preComs := nextPre })
    let ((value, lineInd), st) ← skipPreWhite opts f value0 st
    if byteAt st 0 == ']' then do
      if lineInd ≥ 0 && st.indent - 1 != lineInd then
        throwIndentationError opts st (st.indent - 1) lineInd
      let array := if value.hasComments then
          setEndBraceComs array value.commentsRead.preComs
        else array
      pure (array, st)
    else if byteAt st 0 == nulChar then
      let array := if value.hasComments then
          setEndBraceComs array value.commentsRead.preComs
        else array
      pure (array, st)
    else do
      if lineInd ≥ 0 && st.indent != lineInd then
        throwIndentationError opts st st.indent lineInd
      if identStarter (byteAt st 0) && !isReservedIdent st then
        throw (throwErr st
          "Found identifier; expected value. Did you mean to use a \x7bobject\x7d rather than a [array]?")
      let ((value, hasSep), st) ← parseValue opts f value st
      let ((_, _, coms2), st) ← skipWhite opts f false st
      let commaSaved := getStateP st
      let hasComma := byteAt st 0 == ','
      let (value, hasSep, st) ←
        if hasComma then do
          let st := advanceP st 1
          let ((value, _), st) ← skipPostWhite opts f value st
          pure (value, true, st)
        else pure (value, hasSep, st)
      let array ←
        match pushBack array value with
        | .ok a => pure a
        | .error _ => throw (throwErr st "model: push_back on non-array")
      let isLast := byteAt st 0 == nulChar || byteAt st 0 == ']'
      if isLast then
        if hasComma && !opts.array_trailing_comma then
          throw (throwErr (setStateP st commaSaved) "Trailing comma forbidden.")
        else pure ()
      else if opts.array_omit_comma then
        if !hasSep then throw (throwErr st "Expected a space, newline, comma or ]")
        else pure ()
      else
        if !hasComma then throw (throwErr st "Expected a comma or ]")
        else pure ()
      arrayLoop opts f array coms2 st
termination_by structural fuel

/-- `Parser::parse_object`: braces around parse_object_contents, with the
indentation counter raised inside. -/
def parseObject (opts : FormatOptions) (fuel : Nat) (dst : Config)
    (st : PSt) : Except PErr (Config × PSt) :=
  match fuel with
  | 0 => .error (fuelErr st)
  | f + 1 => do
    let savedSt := getStateP st
    if byteAt st 0 != '{' then throw (throwErr st ("Expected " ++ quoteC '{'))
    let st := advanceP st 1
    let st := { st with indent := st.indent + 1 }
    let (dst, st) ← parseObjectContents opts f dst st
    let st := { st with indent := st.indent - 1 }
    if byteAt st 0 == '}' then pure (dst, advanceP st 1)
    else throw (throwErr (setStateP st savedSt) "Non-terminated object")
termination_by structural fuel

/-- `Parser::parse_object_contents`: make the object and run the
key-value loop. -/
def parseObjectContents (opts : FormatOptions) (fuel : Nat) (dst : Config)
    (st : PSt) : Except PErr (Config × PSt) :=
  match fuel with
  | 0 => .error (fuelErr st)
  | f + 1 =>
    match makeObject dst with
    | .error _ => .error (throwErr st "model: make_object on initialized value")
    | .ok dst => objectLoop opts f dst [] st
termination_by structural fuel

/-- The key-value loop of parse_object_contents. -/
def objectLoop (opts : FormatOptions) (fuel : Nat) (object : Config)
    (nextPre : List Bytes) (st : PSt) : Except PErr (Config × PSt) :=
  match fuel with
  | 0 => .error (fuelErr st)
  | f + 1 => do
    let value0 :=
      if nextPre.isEmpty then Config.uninitC
      else Config.mk .uninit none none
        (some { CommentsV.emptyV with preComs := nextPre })
    let ((value, lineInd), st) ← skipPreWhite opts f value0 st
    if byteAt st 0 == '}' then do
      if lineInd ≥ 0 && st.indent - 1 != lineInd then
        throwIndentationError opts st (st.indent - 1) lineInd
      let object := if value.hasComments then
          setEndBraceComs object value.commentsRead.preComs
        else object
      pure (object, st)
    else if byteAt st 0 == nulChar then
      let object := if value.hasComments then
          setEndBraceComs object value.commentsRead.preComs
        else object
      pure (object, st)
    else do
      if lineInd ≥ 0 && st.indent != lineInd then
        throwIndentationError opts st st.indent lineInd
      let preKeySaved := getStateP st
      let (key, st) ←
        if identStarter (byteAt st 0) && !isReservedIdent st then
          if !opts.identifiers_keys then
            throw (throwErr st "You need to surround keys with quotes")
          else
            let ks := (st.input.drop st.pos).takeWhile identChar
            pure (ks, advanceP st ks.length)
        else if byteAt st 0 == '"' || byteAt st 0 == '@' then
          parseStringF opts f st
        else
          throw (throwErr st
            ("Object key expected (either an identifier or a quoted string), got "
              ++ quoteC (byteAt st 0)))
      let objEntries ←
        match asObject object with
        | .ok es => pure es
        | .error _ => throw (throwErr st "model: object loop on non-object")
      if !opts.object_duplicate_keys && (findEntry objEntries key).isSome then
        let whereS :=
          match findEntry objEntries key with
          | some e => e.value.whereStr
          | none => ""
        throw (throwErr (setStateP st preKeySaved)
          ("Duplicate key: \"" ++ String.mk key ++ "\". Already set at " ++ whereS))
      let (spaceAfterKey, st) ← skipWhiteIC opts f st
      let c := byteAt st 0
      let st ←
        if c == ':' || (opts.object_separator_equal && c == '=') then
          if !(opts.allow_space_before_colon || c != ':' || !spaceAfterKey) then
            throw (throwErr st "No space allowed before colon")
          else do
            let st := advanceP st 1
            let (_, st) ← skipWhiteIC opts f st
            pure st
        else if opts.omit_colon_before_object && (c == '{' || c == '#') then
          pure st
        else
          if opts.object_separator_equal && opts.omit_colon_before_object then
            throw (throwErr st "Expected one of =, :, \x7b or # after object key")
          else throw (throwErr st "Expected : after object key")
      let ((value, hasSep), st) ← parseValue opts f value st
      let ((_, _, coms2), st) ← skipWhite opts f false st
      let commaSaved := getStateP st
      let hasComma := byteAt st 0 == ','
      let (value, hasSep, st) ←
        if hasComma then do
          let st := advanceP st 1
          let ((value, _), st) ← skipPostWhite opts f value st
          pure (value, true, st)
        else pure (value, hasSep, st)
      let object ←
        match setKey object key value with
        | .ok o => pure o
        | .error _ => throw (throwErr st "model: setKey on non-object")
      let isLast := byteAt st 0 == nulChar || byteAt st 0 == '}'
      if isLast then
        if hasComma && !opts.object_trailing_comma then
          throw (throwErr (setStateP st commaSaved) "Trailing comma forbidden.")
        else pure ()
      else if opts.object_omit_comma then
        if !hasSep then throw (throwErr st "Expected a space, newline, comma or \x7d")
        else pure ()
      else
        if !hasComma then throw (throwErr st "Expected a comma or \x7d")
        else pure ()
      objectLoop opts f object coms2 st
termination_by structural fuel

/-- `Parser::parse_macro` (the #include directive): resolve the path,
reuse the per-session cache when the file was already parsed (copy
assignment, sharing the tree), otherwise parse the file and record it. -/
def parseInclude (opts : FormatOptions) (fuel : Nat) (dst : Config)
    (st : PSt) : Except PErr (Config × PSt) :=
  match fuel with
  | 0 => .error (fuelErr st)
  | f + 1 => do
    if !opts.allow_include then throw (throwErr st "#macros forbidden.")
    if !matchAt st 0 (bytes "#include") then
      throw (throwErr st "Expected #include")
    let st := advanceP st 8
    let (_, st) ← skipWhiteIC opts f st
    let (absolute, terminator) ←
      if byteAt st 0 == '"' then pure (false, '"')
      else if byteAt st 0 == '<' then pure (true, '>')
      else throw (throwErr st "Expected \" or <")
    let savedSt := st
    let st := advanceP st 1
    let (pathB, st) ← includePathLoop f savedSt terminator [] st
    let pathB :=
      if absolute then pathB
      else
        match dirPre st.docName.data with
        | some dir => dir ++ pathB
        | none => pathB
    let path := String.mk pathB
    match lookupStr st.cache path with
    | some cfg => pure (assignCopy dst cfg, st)
    | none =>
      let (cfg, st) ← parseFileM opts f path st
      let dstNew := assignMove dst cfg
      let st := { st with cache := (path, dstNew) :: st.cache }
      pure (dstNew, st)
termination_by structural fuel

/-- `parse_file` as called from parse_macro: read the file through the
oracle (a missing file surfaces the CONFIGURU_ONERROR of
read_text_file), then parse it with a fresh parser sharing the session's
cache. -/
def parseFileM (opts : FormatOptions) (fuel : Nat) (path : String)
    (st : PSt) : Except PErr (Config × PSt) :=
  match fuel with
  | 0 => .error (fuelErr st)
  | f + 1 =>
    match lookupStr st.fsys path with
    | none =>
      .error { filename := path, lineNr := 0, colNr := 0,
               msg := "Failed to open file for reading" }
    | some text =>
      let child : PSt :=
        { input := text, pos := 0, lineNr := 1, lineStart := 0, indent := 0,
          docName := path, fsys := st.fsys, cache := st.cache }
      match topLevel opts f child with
      | .error e => .error e
      | .ok (cfg, child') => .ok (cfg, { st with cache := child'.cache })
termination_by structural fuel

/-- `Parser::top_level`: peek to decide between implicit object contents
and array contents, parse, require EoF, then apply the empty-file rule
and the single-value collapse. -/
def topLevel (opts : FormatOptions) (fuel : Nat) (st : PSt) :
    Except PErr (Config × PSt) :=
  match fuel with
  | 0 => .error (fuelErr st)
  | f + 1 => do
    let (isObject, st) ←
      if opts.implicit_top_object then do
        let savedSt := getStateP st
        let (_, st) ← skipWhiteIC opts f st
        if identStarter (byteAt st 0) && !isReservedIdent st then
          pure (true, setStateP st savedSt)
        else if byteAt st 0 == '"' || byteAt st 0 == '@' then do
          let (_, st) ← parseStringF opts f st
          let (_, st) ← skipWhiteIC opts f st
          let isObj := byteAt st 0 == ':' || byteAt st 0 == '='
          pure (isObj, setStateP st savedSt)
        else pure (false, setStateP st savedSt)
      else pure (false, st)
    let ret := tagC Config.uninitC st
    let (ret, st) ←
      if isObject then parseObjectContents opts f ret st
      else do
        let (ret, st) ← parseArrayContents opts f ret st
        if !(arrLen ret ≤ 1 || opts.implicit_top_array) then
          throw (throwErr st "Multiple values not allowed without enclosing []")
        pure (ret, st)
    let ((ret, _), st) ← skipPostWhite opts f ret st
    if byteAt st 0 != nulChar then throw (throwErr st "Expected EoF")
    if !isObject && arrLen ret == 0 then
      if opts.empty_file then
        pure (Config.mk (.objV none []) none none ret.commsOf, st)
      else throw (throwErr st "Empty file")
    else if !isObject && arrLen ret == 1 then
      let first := arrGet0 ret
      let first :=
        if ret.hasComments then
          match first with
          | .mk v d l cm =>
            Config.mk v d l (some ((cm.getD CommentsV.emptyV).appendV ret.commentsRead))
        else first
      pure (first, st)
    else pure (ret, st)
termination_by structural fuel
end

/-- Fuel budget that is amply sufficient for the documents evaluated in
the theorems below (calls and loop iterations each consume at most one
unit per input byte plus a constant). -/
def bigFuel (s : Bytes) : Nat := 32 * s.length + 256

/-- `configuru::parse_string(str, options, name)`: fresh ParseInfo, fresh
document, full parse. The file-system oracle is a parameter. -/
def parseDocF (opts : FormatOptions) (fsys : List (String × Bytes))
    (name : String) (s : Bytes) : Except PErr Config :=
  match topLevel opts (bigFuel s)
      { input := s, pos := 0, lineNr := 1, lineStart := 0, indent := 0,
        docName := name, fsys := fsys, cache := [] } with
  | .error e => .error e
  | .ok (cfg, _) => .ok cfg

/-- Parse with an empty file system (documents without #include). -/
def parseDoc (opts : FormatOptions) (s : Bytes) : Except PErr Config :=
  parseDocF opts [] "" s

/-! ## The writer -/

/-- `configuru::is_identifier`. -/
def isIdentifierB : Bytes → Bool
  | [] => false
  | c :: rest => identStarter c && rest.all identChar

/-- `configuru::is_simple`: not a container and comment-free. -/
def isSimple (v : Config) : Bool :=
  if v.typeOf == .arrayT || v.typeOf == .objectT then false
  else if v.hasComments then false
  else true

/-- `configuru::is_all_numbers` on the element list. -/
def isAllNumbersL (xs : List Config) : Bool := xs.all Config.isNumber

/-- `configuru::is_simple_array` on the element list: up to 16 numbers
always qualify (without any comment check); otherwise up to 4 simple
elements. -/
def isSimpleArrayL (xs : List Config) : Bool :=
  if xs.length ≤ 16 && isAllNumbersL xs then true
  else if xs.length > 4 then false
  else xs.all isSimple

/-- `configuru::is_simple_array`. -/
def isSimpleArray (c : Config) : Bool :=
  match c.val with
  | .arrV _ xs => isSimpleArrayL xs
  | _ => false

/-- `configuru::has_pre_end_brace_comments`. -/
def hasPreEndBraceComments (c : Config) : Bool :=
  c.hasComments && !c.commentsRead.endBraceComs.isEmpty

/-- The layout Writer::write_value chooses for an array in the order of
its branch conditions: bare brackets for a comment-free empty array, a
single-line rendering in compact mode or for a simple array, one element
per line otherwise. -/
inductive ArrRender where
  | emptyBrackets
  | singleLine
  | multiLine
deriving DecidableEq, Repr

/-- The branch of Writer::write_value's array case that a value takes. -/
def arrayRenderMode (opts : FormatOptions) (c : Config) : ArrRender :=
  if arrLen c == 0 && !hasPreEndBraceComments c then .emptyBrackets
  else if opts.compact || isSimpleArray c then .singleLine
  else .multiLine

/-- Spec wording of claim C9's single-line condition, for comparison with
the code's heuristic: all elements non-container and comment-free, and
either all numeric with length at most 16, or length at most 4. -/
def c9SpecSingleLine (c : Config) : Bool :=
  match c.val with
  | .arrV _ xs =>
    xs.all (fun x => !(x.typeOf == .arrayT || x.typeOf == .objectT) && !x.hasComments)
      && ((isAllNumbersL xs && xs.length ≤ 16) || xs.length ≤ 4)
  | _ => false

/-- Failures of the writer: unserializable tags (the C++ throw "Cannot
serialize Config"), number-encoding failures raised by write_number
(CONFIGURU_ONERROR on forbidden inf/NaN), fuel exhaustion, and the
assertion failures that are unreachable from the modelled call sites. -/
inductive WErr where
  | cannotSerialize
  | numErr (msg : String)
  | wFuel
  | wInternal
deriving DecidableEq, Repr

/-- The type of the abstract `Writer::write_number`: its decimal
rendering of doubles is floating-point formatting, outside this
embedding's scope; theorems below hold for every instantiation. -/
abbrev WNum := FormatOptions → FloatD → Except WErr Bytes

/-- `b` repeated `n` times. -/
def repeatB (b : Bytes) : Nat → Bytes
  | 0 => []
  | n + 1 => b ++ repeatB b n

/-- `Writer::write_indent`. -/
def writeIndentB (opts : FormatOptions) (ind : Nat) : Bytes :=
  if opts.compact then [] else repeatB opts.indentation ind

/-- `Writer::write_prefix_comments`. -/
def writePreComsB (opts : FormatOptions) (ind : Nat) (coms : List Bytes) : Bytes :=
  if !opts.write_comments then []
  else if coms.isEmpty then []
  else
    bytes "\n"
      ++ coms.foldl (fun acc c => acc ++ writeIndentB opts ind ++ c ++ bytes "\n") []

/-- `Writer::write_postfix_comments`. -/
def writePostComsB (opts : FormatOptions) (coms : List Bytes) : Bytes :=
  if !opts.write_comments then []
  else coms.foldl (fun acc c => acc ++ [' '] ++ c) []

/-- `Writer::write_hex_digit`: as in the source, the branch for letter
digits streams the integer expression `'a' + num - 10` (no char cast), so
its decimal digits are emitted. -/
def writeHexDigit (num : Nat) : Bytes :=
  if num < 10 then bytes (toString num)
  else bytes (toString (97 + num - 10))

/-- `Writer::write_hex_16`. -/
def writeHex16 (n : Nat) : Bytes :=
  writeHexDigit ((n >>> 12) &&& 0x0f) ++ writeHexDigit ((n >>> 8) &&& 0x0f)
    ++ writeHexDigit ((n >>> 4) &&& 0x0f) ++ writeHexDigit (n &&& 0x0f)

/-- `Writer::write_unicode_16`. -/
def writeUnicode16 (c : Nat) : Bytes := bytes "\\u" ++ writeHex16 c

/-- One character of `Writer::write_quoted_string`'s escaping. -/
def quoteChar (c : Char) : Bytes :=
  if c == '\\' then bytes "\\\\"
  else if c == '"' then bytes "\\\""
  else if c == nulChar then bytes "\\0"
  else if c == Char.ofNat 8 then bytes "\\b"
  else if c == Char.ofNat 12 then bytes "\\f"
  else if c == '\n' then bytes "\\n"
  else if c == '\r' then bytes "\\r"
  else if c == '\t' then bytes "\\t"
  else if c.toNat < 0x20 then writeUnicode16 c.toNat
  else [c]

/-- `Writer::write_quoted_string`. -/
def writeQuotedString (str : Bytes) : Bytes :=
  ['"'] ++ str.foldl (fun acc c => acc ++ quoteChar c) [] ++ ['"']

/-- Substring search (`std::string::find` of a pattern). -/
def containsSub (s sub : Bytes) : Bool :=
  match s with
  | [] => sub.isEmpty
  | _ :: rest => s.take sub.length == sub || containsSub rest sub

/-- `Writer::write_string`: quoted-escaped form unless the dialect allows
the Python verbatim form and the string is a long multi-line one without
an embedded triple quote. -/
def writeStringB (opts : FormatOptions) (str : Bytes) : Bytes :=
  if !opts.str_python_multiline || !str.contains '\n' || str.length < 240
      || containsSub str (bytes "\"\"\"") then
    writeQuotedString str
  else bytes "\"\"\"" ++ str ++ bytes "\"\"\""

/-- `Writer::write_key`. -/
def writeKeyB (opts : FormatOptions) (k : Bytes) : Bytes :=
  if opts.identifiers_keys && isIdentifierB k then k else writeStringB opts k

/-- Insert into a list sorted by the strict order `lt` (stable for
incomparable elements). Models the std::sort calls of
write_object_contents; the comparators there are strict orders on unique
keys and on insertion indices. -/
def insertByB {α : Type} (lt : α → α → Bool) (x : α) : List α → List α
  | [] => [x]
  | y :: ys => if lt x y then x :: y :: ys else y :: insertByB lt x ys

/-- Sort by the strict order `lt`. -/
def sortByB {α : Type} (lt : α → α → Bool) : List α → List α
  | [] => []
  | x :: xs => insertByB lt x (sortByB lt xs)

/-- `object_size()` of an object value (0 otherwise; the writer's use is
guarded by an is_object test). -/
def arrObjSize (c : Config) : Nat :=
  match c.val with
  | .objV _ es => es.length
  | _ => 0

mutual
/-- `Writer::write_value`. `wdoc` is the writer's `_doc`; a value tagged
with a different document is an include boundary: its sub-document is
serialized (for the external write_file collaborator) and an `#include`
directive is emitted in place. -/
def writeValue (opts : FormatOptions) (wnum : WNum) (fuel : Nat)
    (wdoc : Option String) (ind : Nat) (config : Config)
    (writePre writePost : Bool) : Except WErr Bytes :=
  match fuel with
  | 0 => .error .wFuel
  | f + 1 => do
    if opts.allow_include && config.docOf.isSome && config.docOf != wdoc then
      let _ ← writeDocM opts wnum f config
      return bytes "#include <" ++ (config.docOf.getD "").data ++ bytes ">"
    let pre :=
      if writePre then writePreComsB opts ind config.commentsRead.preComs else []
    let body ←
      match config.val with
      | .nullV => pure (bytes "null")
      | .boolV b => pure (if b then bytes "true" else bytes "false")
      | .intV i => pure (bytes (toString i))
      | .floatV fl => wnum opts fl
      | .strV s => pure (writeStringB opts s)
      | .arrV _ xs =>
        if xs.length == 0 && !hasPreEndBraceComments config then
          pure (if opts.compact then bytes "[]" else bytes "[ ]")
        else if opts.compact || isSimpleArrayL xs then do
          let inner ← writeArrSimple opts wnum f wdoc ind xs xs.length 0
          pure ([ '[' ] ++ (if !opts.compact then [' '] else [])
            ++ inner
            ++ writePreComsB opts (ind + 1) config.commentsRead.endBraceComs
            ++ [']'])
        else do
          let inner ← writeArrMulti opts wnum f wdoc ind xs xs.length 0
          pure (bytes "[\n" ++ inner
            ++ writePreComsB opts (ind + 1) config.commentsRead.endBraceComs
            ++ writeIndentB opts ind ++ [']'])
      | .objV _ es =>
        if es.length == 0 && !hasPreEndBraceComments config then
          pure (if opts.compact then bytes "\x7b\x7d" else bytes "\x7b \x7d")
        else do
          let inner ← writeObjectContents opts wnum f wdoc (ind + 1) config
          pure ((if opts.compact then ['\x7b'] else bytes "\x7b\n")
            ++ inner ++ writeIndentB opts ind ++ ['\x7d'])
      | .uninit => throw .cannotSerialize
      | .badLookup _ _ _ => throw .cannotSerialize
    let post :=
      if writePost then writePostComsB opts config.commentsRead.postComs else []
    pure (pre ++ body ++ post)
termination_by structural fuel

/-- The element loop of write_value's single-line array rendering. -/
def writeArrSimple (opts : FormatOptions) (wnum : WNum) (fuel : Nat)
    (wdoc : Option String) (ind : Nat) (xs : List Config) (total i : Nat) :
    Except WErr Bytes :=
  match fuel with
  | 0 => .error .wFuel
  | f + 1 =>
    match xs with
    | [] => .ok []
    | x :: rest => do
      let s ← writeValue opts wnum f wdoc (ind + 1) x false true
      let sep :=
        if opts.compact then (if i + 1 < total then [','] else [])
        else if opts.array_omit_comma || i + 1 == total then [' ']
        else bytes ", "
      let restS ← writeArrSimple opts wnum f wdoc ind rest total (i + 1)
      pure (s ++ sep ++ restS)
termination_by structural fuel

/-- The element loop of write_value's one-element-per-line array
rendering. -/
def writeArrMulti (opts : FormatOptions) (wnum : WNum) (fuel : Nat)
    (wdoc : Option String) (ind : Nat) (xs : List Config) (total i : Nat) :
    Except WErr Bytes :=
  match fuel with
  | 0 => .error .wFuel
  | f + 1 =>
    match xs with
    | [] => .ok []
    | x :: rest => do
      let s ← writeValue opts wnum f wdoc (ind + 1) x false true
      let sep :=
        if opts.array_omit_comma || i + 1 == total then bytes "\n"
        else bytes ",\n"
      let restS ← writeArrMulti opts wnum f wdoc ind rest total (i + 1)
      pure (writePreComsB opts (ind + 1) x.commentsRead.preComs
        ++ writeIndentB opts (ind + 1) ++ s ++ sep ++ restS)
termination_by structural fuel

/-- `Writer::write_object_contents`: order the entries (insertion order
through `nr`, or lexicographic keys when sort_keys is set), then emit
each entry with key padding to the longest key. -/
def writeObjectContents (opts : FormatOptions) (wnum : WNum) (fuel : Nat)
    (wdoc : Option String) (ind : Nat) (config : Config) :
    Except WErr Bytes :=
  match fuel with
  | 0 => .error .wFuel
  | f + 1 =>
    match config.val with
    | .objV _ es =>
      let longestKey := es.foldl (fun m e => max m e.key.length) 0
      let pairs :=
        if opts.sort_keys then sortByB (fun a b => strLtB a.key b.key) es
        else sortByB (fun a b => a.nr.getD 0 < b.nr.getD 0) es
      match writeObjLoop opts wnum f wdoc ind pairs pairs.length 0 longestKey with
      | .error e => .error e
      | .ok inner =>
        .ok (inner ++ writePreComsB opts ind config.commentsRead.endBraceComs)
    | _ => .error .wInternal
termination_by structural fuel

/-- The entry loop of write_object_contents. -/
def writeObjLoop (opts : FormatOptions) (wnum : WNum) (fuel : Nat)
    (wdoc : Option String) (ind : Nat) (pairs : List EntryKV)
    (total i longestKey : Nat) : Except WErr Bytes :=
  match fuel with
  | 0 => .error .wFuel
  | f + 1 =>
    match pairs with
    | [] => .ok []
    | e :: rest => do
      let value := e.value
      let sepAfterKey :=
        if opts.compact then [':']
        else if opts.omit_colon_before_object && value.typeOf == .objectT
            && arrObjSize value != 0 then [' ']
        else bytes ": " ++ repeatB [' '] (longestKey - e.key.length)
      let s ← writeValue opts wnum f wdoc ind value false true
      let sep :=
        if opts.compact then (if i + 1 < total then [','] else [])
        else if opts.array_omit_comma || i + 1 == total then bytes "\n"
        else bytes ",\n"
      let restS ← writeObjLoop opts wnum f wdoc ind rest total (i + 1) longestKey
      pure (writePreComsB opts ind value.commentsRead.preComs
        ++ writeIndentB opts ind ++ writeKeyB opts e.key ++ sepAfterKey
        ++ s ++ sep ++ restS)
termination_by structural fuel

/-- `configuru::write(config, options)`: implicit top-level objects are
written as bare contents; everything else through write_value with a
trailing newline. -/
def writeDocM (opts : FormatOptions) (wnum : WNum) (fuel : Nat)
    (config : Config) : Except WErr Bytes :=
  match fuel with
  | 0 => .error .wFuel
  | f + 1 =>
    let wdoc := config.docOf
    if opts.implicit_top_object && config.typeOf == .objectT then
      writeObjectContents opts wnum f wdoc 0 config
    else
      match writeValue opts wnum f wdoc 0 config true true with
      | .error e => .error e
      | .ok s => .ok (s ++ bytes "\n")
termination_by structural fuel
end

/-! ## Helper definitions for the claim statements -/

/-- The kind of an accessor failure (spec §7's error taxonomy). -/
inductive ErrK where
  | kMissing
  | kNotInObj
  | kMismatch
  | kRange
  | kIndex
  | kOther
deriving DecidableEq, Repr

/-- Classify a CErr. -/
def errK : CErr → ErrK
  | .missingKey _ _ => .kMissing
  | .keyNotInObject _ _ => .kNotInObj
  | .typeMismatch _ _ _ => .kMismatch
  | .intOutOfRange _ => .kRange
  | .arrayIndexOutOfRange _ => .kIndex
  | .otherErr _ _ => .kOther

/-- The error kind of an accessor result (`none` on success). -/
def resKind {α : Type} : Except CErr α → Option ErrK
  | .ok _ => none
  | .error e => some (errK e)

/-- Spec wording: the int64 value `i` is representable in the requested
integer type. -/
def reprInt (t : IntTy) (i : Int) : Bool :=
  if t.signed then decide (-(2 ^ (t.width - 1)) ≤ i ∧ i < 2 ^ (t.width - 1))
  else decide (0 ≤ i ∧ i < 2 ^ t.width)

/-- The C++ `int64_t` as an IntTy. -/
def i64Ty : IntTy := ⟨true, 64⟩

/-- The C++ `unsigned long long` as an IntTy. -/
def u64Ty : IntTy := ⟨false, 64⟩

/-- The statement sequence `cfg[k] = v; cfg[k]`: assignment through the
mutable lookup, then a second mutable lookup, returning what that lookup
hands back. -/
def setThenGet (c : Config) (k : Bytes) (v : Config) : Except CErr Config :=
  match setKey c k v with
  | .error e => .error e
  | .ok c' =>
    match opIndexMut c' k with
    | .error e => .error e
    | .ok (_, r) => .ok r

/-- A mutable lookup whose result is never assigned: the value the C++
reference exposes to subsequent reads. -/
def getMutOnly (c : Config) (k : Bytes) : Except CErr Config :=
  match opIndexMut c k with
  | .error e => .error e
  | .ok (_, r) => .ok r

/-- The object as updated by a mutable lookup (the side effect on the
shared ConfigObject). -/
def getMutObj (c : Config) (k : Bytes) : Except CErr Config :=
  match opIndexMut c k with
  | .error e => .error e
  | .ok (c', _) => .ok c'

/-- The accessed flag stored under key `k`. -/
def accessedOf (c : Config) (k : Bytes) : Except CErr (Option Bool) :=
  match asObject c with
  | .error e => .error e
  | .ok es => .ok ((findEntry es k).map EntryKV.accessed)

/-- The object as updated by a const read of key `k` (marks the entry
accessed). -/
def readKeyObj (c : Config) (k : Bytes) : Except CErr Config :=
  match opIndexConst c k with
  | .error e => .error e
  | .ok (c', _) => .ok c'

/-- Claim C9's condition as amended to match the code: a single-line
rendering exactly for a simple array — up to 16 numbers (comments on the
elements notwithstanding), or up to 4 non-container comment-free
elements — except the empty array without pre-brace comments, which
renders as bare brackets. -/
def c9AmendedSingleLine (c : Config) : Bool :=
  match c.val with
  | .arrV _ xs =>
    ((isAllNumbersL xs && xs.length ≤ 16) || (xs.length ≤ 4 && xs.all isSimple))
      && !(xs.length == 0 && !hasPreEndBraceComments c)
  | _ => false

/-- A fresh parser state over input `s` (as built by parse_string with an
anonymous document and a fresh ParseInfo). -/
def pst0 (s : Bytes) : PSt :=
  { input := s, pos := 0, lineNr := 1, lineStart := 0, indent := 0,
    docName := "", fsys := [], cache := [] }

/-! ## Theorems

First a set of helper lemmas about the object map and the dangling walk,
then one theorem per claim of the specification. -/

/-- Finding the freshly inserted key: if `k` was absent, the sorted
insertion of an entry keyed `k` is found by a subsequent lookup. -/
theorem findEntry_mapInsert (es : List EntryKV) (k : Bytes) (e : EntryKV)
    (hk : e.key = k) (h : findEntry es k = none) :
    findEntry (mapInsert k e es) k = some e := by
  induction es with
  | nil => simp [mapInsert, findEntry, hk]
  | cons e' rest ih =>
    have h' : (e'.key == k) = false ∧ findEntry rest k = none := by
      by_cases hke : e'.key == k
      · simp [findEntry, hke] at h
      · exact ⟨by simpa using hke, by simpa [findEntry, hke] using h⟩
    simp only [mapInsert]
    by_cases hlt : strLtB k e'.key
    · simp [hlt, findEntry, hk]
    · simp [hlt, findEntry, h'.1, ih h'.2]

/-- Sorted insertion grows the map by one entry. -/
theorem length_mapInsert (es : List EntryKV) (k : Bytes) (e : EntryKV) :
    (mapInsert k e es).length = es.length + 1 := by
  induction es with
  | nil => simp [mapInsert]
  | cons e' rest ih =>
    simp only [mapInsert]
    by_cases hlt : strLtB k e'.key
    · simp [hlt]
    · simp [hlt, ih]

/-- The inserted entry is a member of the grown map. -/
theorem mem_mapInsert (es : List EntryKV) (k : Bytes) (e : EntryKV) :
    e ∈ mapInsert k e es := by
  induction es with
  | nil => simp [mapInsert]
  | cons e' rest ih =>
    simp only [mapInsert]
    by_cases hlt : strLtB k e'.key
    · simp [hlt]
    · simp only [hlt, if_neg, Bool.false_eq_true, ite_false]
      exact List.mem_cons_of_mem _ ih

/-- Any unaccessed entry of an object contributes its own warning to the
dangling walk over the entry list, given fuel covering the list. -/
theorem cdEntries_mem (es : List EntryKV) (e : EntryKV)
    (hmem : e ∈ es) (hacc : e.accessed = false) :
    ∀ fuel, es.length ≤ fuel →
      (e.value.whereStr, e.key) ∈ cdEntries fuel es := by
  induction es with
  | nil => simp at hmem
  | cons e' rest ih =>
    intro fuel hf
    obtain ⟨f, rfl⟩ : ∃ f, fuel = f + 1 :=
      ⟨fuel - 1, by simp only [List.length_cons] at hf; omega⟩
    rcases List.mem_cons.mp hmem with h | h
    · subst h
      simp only [cdEntries, hacc, Bool.false_eq_true, ite_false]
      exact List.mem_append_left _ (by simp)
    · refine List.mem_append_right _ (ih h f ?_)
      simpa using Nat.le_of_succ_le_succ hf

/-- Claim C1 — round-trip. Code-bug evidence: under the default dialect
the document consisting of an empty object literal parses successfully to
an empty Object value, the writer renders that tree as the empty text
(for every instantiation of the abstract number formatter, which the
empty object never consults), and re-parsing the written text raises a
ParseError ("Empty file") instead of yielding a deep-equal tree. -/
theorem c1_roundtrip_failure :
    parseDoc CFG (bytes "\x7b\x7d")
      = .ok (Config.mk (.objV none []) (some "") (some 1) none)
    ∧ (∀ wnum : WNum,
        writeDocM CFG wnum 1000
          (Config.mk (.objV none []) (some "") (some 1) none) = .ok [])
    ∧ (parseDoc CFG []).isOk = false :=
  ⟨rfl, fun _ => rfl, rfl⟩

/-- Claim C2 — deep_eq. Code-bug evidence: two arrays of equal length
with pairwise-unequal elements and distinct allocations compare
deep-equal, because the source's array loop compares each element of the
first array with itself. The further conjuncts show the elements are
unequal under deep_eq itself and that no shared-allocation short-circuit
applies. -/
theorem c2_deep_eq_self_compare :
    deepEq 100 (Config.mk (.arrV (some 1) [Config.ofInt 1]) none none none)
               (Config.mk (.arrV (some 2) [Config.ofInt 2]) none none none)
        = true
    ∧ deepEq 100 (Config.ofInt 1) (Config.ofInt 2) = false
    ∧ sameAlloc (some 1) (some 2) = false :=
  ⟨rfl, rfl, rfl⟩

/-- Claim C5 — indentation enforcement. Code-bug evidence: under the
default dialect both "a:\n1" (no tab before the value) and "a:\n\t1"
parse successfully to the same tree — the colon handler of
parse_object_contents consumes the newline and its indentation through
skip_white_ignore_comments, so the value-indentation check of parse_value
never sees an indented line, and no indentation ParseError is raised for
the unindented document. -/
theorem c5_no_indentation_error :
    parseDoc CFG (bytes "a:\n1")
      = .ok (Config.mk (.objV none
          [.mk (bytes "a") (Config.mk (.intV 1) (some "") (some 2) none)
               (some 0) false])
          (some "") (some 1) none)
    ∧ parseDoc CFG (bytes "a:\n\t1")
      = .ok (Config.mk (.objV none
          [.mk (bytes "a") (Config.mk (.intV 1) (some "") (some 2) none)
               (some 0) false])
          (some "") (some 1) none) :=
  ⟨rfl, rfl⟩

/-- Claim C6 — unicode escapes. Code-bug evidence: the quoted string
"\u00e9" parses to the single byte 0x49 ("I"), because parse_hex adds
the letter digits as `c - 'a'` without the +10 offset (0x00e9 is thus
read as 0x0049); the correct behaviour required by the claim would be the
UTF-8 encoding of U+00E9, which encode_utf8 renders as the two bytes
0xC3 0xA9 (second conjunct). -/
theorem c6_unicode_escape_wrong :
    parseDoc CFG (bytes "\"\\u00e9\"")
      = .ok (Config.mk (.strV [Char.ofNat 73]) (some "") (some 1) none)
    ∧ (encodeUtf8 [] 0xE9).1 = [Char.ofNat 0xC3, Char.ofNat 0xA9] :=
  ⟨rfl, rfl⟩

/-- Claim C4 — dangling detection: on the object parsed from
`{"a": 1, "b": 2}`, reading only "a" leaves exactly one warning, for key
"b"; reading both keys leaves none; and an entry whose accessed flag is
false is reported once at its own key, with no recursion into its value
(third conjunct, for an arbitrary value and arbitrary fuel). -/
theorem c4_dangling_check :
    (((parseDoc CFG (bytes "\x7b\"a\": 1, \"b\": 2\x7d")).toOption.bind
        fun c => (readKeyObj c (bytes "a")).toOption).map
        fun c => (checkDangling 10 c).map Prod.snd) = some [bytes "b"]
    ∧ ((((parseDoc CFG (bytes "\x7b\"a\": 1, \"b\": 2\x7d")).toOption.bind
        fun c => (readKeyObj c (bytes "a")).toOption).bind
        fun c => (readKeyObj c (bytes "b")).toOption).map
        fun c => (checkDangling 10 c).map Prod.snd) = some []
    ∧ ∀ (fuel : Nat) (k : Bytes) (v : Config) (sid : Option Nat)
        (d : Option String) (l : Option Nat) (cm : Option CommentsV)
        (nr : Option Nat),
        checkDangling (fuel + 2)
          (Config.mk (.objV sid [.mk k v nr false]) d l cm)
          = [(v.whereStr, k)] := by
  refine ⟨rfl, rfl, ?_⟩
  intro fuel k v sid d l cm nr
  simp [checkDangling, cdEntries, EntryKV.accessed, EntryKV.value, EntryKV.key,
        Config.val]

/-- Claim C8 — counterexample: the decimal token "00" begins with the
digit 0 and is not the single character 0, yet parsing the document "00"
under the default dialect succeeds with the integer 0 (the source's
leading-zero check `start[0] != '0' || unsigned_number == 0` accepts any
all-zero spelling), where the claim requires a ParseError. -/
theorem c8_counterexample :
    parseDoc CFG (bytes "00")
      = .ok (Config.mk (.intV 0) (some "") (some 1) none) := rfl

/-- Claim C9 — counterexample: a one-element array holding a number that
carries a comment is rendered on a single line by the writer's heuristic
(is_simple_array accepts any array of at most 16 numbers without looking
at comments), although the claim's condition — all elements non-container
AND comment-free — is false for it, and the claim then requires the
one-element-per-line rendering for this non-empty array. -/
theorem c9_counterexample :
    arrayRenderMode CFG
      (Config.mk (.arrV none
        [Config.mk (.intV 1) none none (some ⟨[bytes "// note"], [], []⟩)])
        none none none) = .singleLine
    ∧ c9SpecSingleLine
      (Config.mk (.arrV none
        [Config.mk (.intV 1) none none (some ⟨[bytes "// note"], [], []⟩)])
        none none none) = false :=
  ⟨rfl, rfl⟩

/-- Claim C7 — counterexample: reading the Int value −1 as the 64-bit
unsigned integer type succeeds, returning 2^64 − 1 (the conversion check
`(int64_t)(IntT)i == i` wraps and holds for every value at width 64),
although −1 is not representable in that type and the claim requires the
"Integer out of range" failure. -/
theorem c7_counterexample :
    asInteger u64Ty (Config.ofInt (-1)) = .ok (2 ^ 64 - 1)
    ∧ reprInt u64Ty (-1) = false := by
  exact ⟨rfl, by decide⟩

/-- Claim C3 — the BadLookup sentinel: on an Object value in which key
`k` is absent, the statement `cfg[k] = 5` installs the value, so a
subsequent mutable lookup of `k` returns the Int 5 and reading it as an
integer yields 5; whereas the result of a mutable lookup that is never
assigned reads back, through every typed accessor, as a missing-key
error naming `k`. -/
theorem c3_sentinel_write_then_read (c : Config) (k : Bytes)
    (h1 : c.typeOf = .objectT) (h2 : hasKey c k = .ok false) :
    setThenGet c k (Config.ofInt 5) = .ok (Config.mk (.intV 5) none none none)
    ∧ (setThenGet c k (Config.ofInt 5)).bind (asInteger i64Ty) = .ok 5
    ∧ getMutOnly c k
        = .ok (Config.mk (.badLookup c.docOf c.lineOf k) none none none)
    ∧ (getMutOnly c k).bind asBool
        = .error (.missingKey (whereIs c.docOf c.lineOf) k)
    ∧ (getMutOnly c k).bind asString
        = .error (.missingKey (whereIs c.docOf c.lineOf) k)
    ∧ (∀ t : IntTy, (getMutOnly c k).bind (asInteger t)
        = .error (.missingKey (whereIs c.docOf c.lineOf) k))
    ∧ (getMutOnly c k).bind asFloat
        = .error (.missingKey (whereIs c.docOf c.lineOf) k)
    ∧ (getMutOnly c k).bind asDouble
        = .error (.missingKey (whereIs c.docOf c.lineOf) k)
    ∧ (getMutOnly c k).bind asArray
        = .error (.missingKey (whereIs c.docOf c.lineOf) k)
    ∧ (getMutOnly c k).bind asObject
        = .error (.missingKey (whereIs c.docOf c.lineOf) k) := by
  obtain ⟨v, d, l, cm⟩ := c
  cases v
  case' objV sid es =>
    have hfind : findEntry es k = none := by
      have h2' : (findEntry es k).isSome = false := by
        simpa [hasKey, asObject, assertType, Config.val, CfgVal.typeOf] using h2
      cases hcase : findEntry es k with
      | none => rfl
      | some e => rw [hcase] at h2'; simp at h2'
    have hfind2 :=
      findEntry_mapInsert es k
        (EntryKV.mk k (Config.mk (.intV 5) none none none) (some es.length) false)
        rfl hfind
    refine ⟨?_, ?_, ?_, ?_, ?_, ?_, ?_, ?_, ?_, ?_⟩
    · simp [setThenGet, setKey, opIndexMut, asObject, assertType, Config.val,
            CfgVal.typeOf, withEntries, hfind, hfind2, assignMove,
            Config.docOf, Config.lineOf, Config.commsOf, EntryKV.value,
            Config.ofInt, EntryKV.key, EntryKV.nr, EntryKV.accessed]
    · simp [setThenGet, setKey, opIndexMut, asObject, assertType, Config.val,
            CfgVal.typeOf, withEntries, hfind, hfind2, assignMove,
            Config.docOf, Config.lineOf, Config.commsOf, EntryKV.value,
            Config.ofInt, EntryKV.key, EntryKV.nr, EntryKV.accessed,
            Except.bind]
      rfl
    · simp [getMutOnly, opIndexMut, asObject, assertType, Config.val,
            CfgVal.typeOf, hfind, Config.docOf, Config.lineOf]
    · simp [getMutOnly, opIndexMut, asObject, assertType, Config.val,
            CfgVal.typeOf, hfind, Config.docOf, Config.lineOf, Except.bind,
            asBool]
    · simp [getMutOnly, opIndexMut, asObject, assertType, Config.val,
            CfgVal.typeOf, hfind, Config.docOf, Config.lineOf, Except.bind,
            asString]
    · intro t
      simp [getMutOnly, opIndexMut, asObject, assertType, Config.val,
            CfgVal.typeOf, hfind, Config.docOf, Config.lineOf, Except.bind,
            asInteger]
    · simp [getMutOnly, opIndexMut, asObject, assertType, Config.val,
            CfgVal.typeOf, hfind, Config.docOf, Config.lineOf, Except.bind,
            asFloat]
    · simp [getMutOnly, opIndexMut, asObject, assertType, Config.val,
            CfgVal.typeOf, hfind, Config.docOf, Config.lineOf, Except.bind,
            asDouble]
    · simp [getMutOnly, opIndexMut, asObject, assertType, Config.val,
            CfgVal.typeOf, hfind, Config.docOf, Config.lineOf, Except.bind,
            asArray]
    · simp [getMutOnly, opIndexMut, asObject, assertType, Config.val,
            CfgVal.typeOf, hfind, Config.docOf, Config.lineOf, Except.bind,
            asObject]
  all_goals simp [Config.typeOf, Config.val, CfgVal.typeOf] at h1

/-- Witness for claim C3's theorem at the empty object and the key
"missing". -/
theorem c3_sentinel_witness :
    (Config.mk (.objV none []) none none none).typeOf = CType.objectT
    ∧ hasKey (Config.mk (.objV none []) none none none) (bytes "missing")
        = .ok false
    ∧ (setThenGet (Config.mk (.objV none []) none none none) (bytes "missing")
        (Config.ofInt 5)).bind (asInteger i64Ty) = .ok 5
    ∧ (getMutOnly (Config.mk (.objV none []) none none none)
        (bytes "missing")).bind asBool
        = .error (.missingKey "" (bytes "missing")) :=
  ⟨rfl, rfl,
   (c3_sentinel_write_then_read (Config.mk (.objV none []) none none none)
     (bytes "missing") rfl rfl).2.1,
   (c3_sentinel_write_then_read (Config.mk (.objV none []) none none none)
     (bytes "missing") rfl rfl).2.2.2.1⟩

/-- Claim C10 — mutable lookup of an absent key inserts the BadLookup
sentinel even without any assignment: afterwards has_key is true, the
object is one entry larger, the new entry's accessed flag is false, and
the dangling check (with fuel covering the entries) reports the key. -/
theorem c10_mutable_miss_inserts (c : Config) (k : Bytes)
    (h1 : c.typeOf = .objectT) (h2 : hasKey c k = .ok false) :
    (getMutObj c k).bind (fun c' => hasKey c' k) = .ok true
    ∧ (getMutObj c k).bind objectSize = (objectSize c).map (· + 1)
    ∧ (getMutObj c k).bind (fun c' => accessedOf c' k) = .ok (some false)
    ∧ ∀ c', getMutObj c k = .ok c' →
        ∀ n, objectSize c' = .ok n → ∀ fuel, n ≤ fuel →
          k ∈ (checkDangling (fuel + 1) c').map Prod.snd := by
  obtain ⟨v, d, l, cm⟩ := c
  cases v
  case' objV sid es =>
    have hfind : findEntry es k = none := by
      have h2' : (findEntry es k).isSome = false := by
        simpa [hasKey, asObject, assertType, Config.val, CfgVal.typeOf] using h2
      cases hcase : findEntry es k with
      | none => rfl
      | some e => rw [hcase] at h2'; simp at h2'
    have hfind2 :=
      findEntry_mapInsert es k
        (EntryKV.mk k
          (Config.mk (.badLookup d l k) none none none) (some es.length) false)
        rfl hfind
    refine ⟨?_, ?_, ?_, ?_⟩
    · simp [getMutObj, opIndexMut, asObject, assertType, Config.val,
            CfgVal.typeOf, hfind, hfind2, withEntries, hasKey, Except.bind,
            Config.docOf, Config.lineOf]
    · simp [getMutObj, opIndexMut, asObject, assertType, Config.val,
            CfgVal.typeOf, hfind, withEntries, objectSize, Except.bind,
            Except.map, length_mapInsert, Config.docOf, Config.lineOf]
    · simp [getMutObj, opIndexMut, asObject, assertType, Config.val,
            CfgVal.typeOf, hfind, hfind2, withEntries, accessedOf,
            Except.bind, Config.docOf, Config.lineOf, EntryKV.accessed]
    · intro c' hc' n hn fuel hf
      have hc'eq :
          c' = Config.mk
            (.objV sid (mapInsert k
              (EntryKV.mk k (Config.mk (.badLookup d l k) none none none)
                (some es.length) false) es)) d l cm := by
        have := hc'
        simp [getMutObj, opIndexMut, asObject, assertType, Config.val,
              CfgVal.typeOf, hfind, withEntries, Config.docOf,
              Config.lineOf] at this
        exact this.symm
      subst hc'eq
      have hlen :
          (mapInsert k
            (EntryKV.mk k (Config.mk (.badLookup d l k) none none none)
              (some es.length) false) es).length = n := by
        have := hn
        simp [objectSize, asObject, assertType, Config.val, CfgVal.typeOf]
          at this
        exact this
      have hmem :=
        mem_mapInsert es k
          (EntryKV.mk k (Config.mk (.badLookup d l k) none none none)
            (some es.length) false)
      have hpair :=
        cdEntries_mem _ _ hmem rfl fuel (by rw [hlen]; exact hf)
      have : k ∈ (cdEntries fuel
          (mapInsert k
            (EntryKV.mk k (Config.mk (.badLookup d l k) none none none)
              (some es.length) false) es)).map Prod.snd := by
        have := List.mem_map_of_mem Prod.snd hpair
        simpa [EntryKV.key] using this
      simpa [checkDangling, Config.val] using this
  all_goals simp [Config.typeOf, Config.val, CfgVal.typeOf] at h1

/-- Witness for claim C10's theorem at the empty object and the key
"m". -/
theorem c10_mutable_miss_witness :
    (Config.mk (.objV none []) none none none).typeOf = CType.objectT
    ∧ hasKey (Config.mk (.objV none []) none none none) (bytes "m")
        = .ok false
    ∧ (getMutObj (Config.mk (.objV none []) none none none)
        (bytes "m")).bind (fun c' => hasKey c' (bytes "m")) = .ok true
    ∧ bytes "m" ∈
        (checkDangling 3
          (Config.mk (.objV none
            [EntryKV.mk (bytes "m")
              (Config.mk (.badLookup none none (bytes "m")) none none none)
              (some 0) false]) none none none)).map Prod.snd :=
  ⟨rfl, rfl,
   (c10_mutable_miss_inserts (Config.mk (.objV none []) none none none)
     (bytes "m") rfl rfl).1,
   (c10_mutable_miss_inserts (Config.mk (.objV none []) none none none)
     (bytes "m") rfl rfl).2.2.2
     (Config.mk (.objV none
        [EntryKV.mk (bytes "m")
          (Config.mk (.badLookup none none (bytes "m")) none none none)
          (some 0) false]) none none none)
     rfl 1 rfl 2 (by omega)⟩

/-- The code's simple-array test written as the claim-style disjunction:
up to 16 numbers, or up to 4 simple elements. -/
theorem isSimpleArrayL_eq (xs : List Config) :
    isSimpleArrayL xs
      = ((isAllNumbersL xs && decide (xs.length ≤ 16))
          || (decide (xs.length ≤ 4) && xs.all isSimple)) := by
  simp only [isSimpleArrayL]
  by_cases h16 : xs.length ≤ 16 <;>
    by_cases hnum : isAllNumbersL xs = true <;>
      by_cases h4 : xs.length > 4 <;>
        simp_all <;> omega

/-- Claim C9 (amended): in non-compact mode the writer renders an array
on a single line exactly when the simple-array heuristic holds — either
all elements are numeric with the length at most 16 (regardless of
comments on the elements), or the length is at most 4 with every element
non-container and comment-free — except that the empty array without
pre-brace comments takes the bare-brackets branch; every other array is
rendered one element per line. -/
theorem c9_simple_array_amended (opts : FormatOptions) (c : Config)
    (hc : opts.compact = false) (ha : c.typeOf = .arrayT) :
    (arrayRenderMode opts c = .singleLine ↔ c9AmendedSingleLine c = true)
    ∧ (arrayRenderMode opts c = .multiLine ↔
        (c9AmendedSingleLine c = false
          ∧ ¬(arrLen c = 0 ∧ hasPreEndBraceComments c = false))) := by
  obtain ⟨v, d, l, cm⟩ := c
  cases v
  case' arrV sid xs =>
    have hAm : c9AmendedSingleLine (Config.mk (.arrV sid xs) d l cm)
        = (isSimpleArrayL xs
            && !(xs.length == 0
                && !hasPreEndBraceComments (Config.mk (.arrV sid xs) d l cm))) := by
      simp only [c9AmendedSingleLine, isSimpleArrayL_eq, Config.val]
    simp only [arrayRenderMode, isSimpleArray, Config.val, arrLen, hc,
               Bool.false_or, hAm]
    cases hz : (xs.length == 0 : Bool) <;>
      cases hb : hasPreEndBraceComments (Config.mk (.arrV sid xs) d l cm) <;>
        cases hS : isSimpleArrayL xs <;>
          simp_all
  all_goals simp [Config.typeOf, Config.val, CfgVal.typeOf] at ha

/-- Witness for claim C9's amended theorem at the default dialect and a
one-element numeric array. -/
theorem c9_simple_array_witness :
    CFG.compact = false
    ∧ (Config.mk (.arrV none [Config.ofInt 1]) none none none).typeOf
        = CType.arrayT
    ∧ (arrayRenderMode CFG (Config.mk (.arrV none [Config.ofInt 1]) none none none)
          = .singleLine
        ↔ c9AmendedSingleLine (Config.mk (.arrV none [Config.ofInt 1]) none none none)
          = true) :=
  ⟨rfl, rfl,
   (c9_simple_array_amended CFG
     (Config.mk (.arrV none [Config.ofInt 1]) none none none) rfl rfl).1⟩

/-- The conversion check of as_integer, at the C++ integral widths and
for in-range int64 payloads: `(int64_t)(IntT)i == i` holds exactly when
`i` is representable in IntT — except for the unsigned 64-bit type,
where the back-conversion wraps and the check holds for every value. -/
theorem castBack_iff (t : IntTy) (i : Int)
    (hw : t.width = 8 ∨ t.width = 16 ∨ t.width = 32 ∨ t.width = 64)
    (hlo : -(2 ^ 63) ≤ i) (hhi : i < 2 ^ 63) :
    castBackI64 t i = i
      ↔ (reprInt t i = true ∨ (t.signed = false ∧ t.width = 64)) := by
  have p7 : (2 : Int) ^ 7 = 128 := by norm_num
  have p8 : (2 : Int) ^ 8 = 256 := by norm_num
  have p15 : (2 : Int) ^ 15 = 32768 := by norm_num
  have p16 : (2 : Int) ^ 16 = 65536 := by norm_num
  have p31 : (2 : Int) ^ 31 = 2147483648 := by norm_num
  have p32 : (2 : Int) ^ 32 = 4294967296 := by norm_num
  have p63 : (2 : Int) ^ 63 = 9223372036854775808 := by norm_num
  have p64 : (2 : Int) ^ 64 = 18446744073709551616 := by norm_num
  obtain ⟨s, w⟩ := t
  cases s <;> rcases hw with rfl | rfl | rfl | rfl <;>
    simp only [castBackI64, castValue, sInterp, reprInt, decide_eq_true_eq,
               if_true, if_false, Bool.false_eq_true, and_true, and_false,
               or_false, ite_true, ite_false,
               show ((8 : Nat) - 1) = 7 from rfl,
               show ((16 : Nat) - 1) = 15 from rfl,
               show ((32 : Nat) - 1) = 31 from rfl,
               show ((64 : Nat) - 1) = 63 from rfl] at * <;>
    simp only [p7, p8, p15, p16, p31, p32, p63, p64] at * <;>
    split_ifs <;> (try simp_all) <;> omega

/-- Claim C7 (amended): typed accessors fail on a tag mismatch — with a
missing-key error when the tag is the BadLookup sentinel, a type-mismatch
error otherwise; as_float and as_double succeed on an Int tag, returning
the converted integer; and an integer-typed read of an Int succeeds
exactly when the stored value is representable in the requested type,
with the sole exception of the unsigned 64-bit type, whose wrap-around
conversion check accepts every value (returning it reduced modulo 2^64);
otherwise the read fails with the "Integer out of range" error. -/
theorem c7_typed_accessors_amended (c : Config) (t : IntTy) (i : Int)
    (hw : t.width = 8 ∨ t.width = 16 ∨ t.width = 32 ∨ t.width = 64)
    (hlo : -(2 ^ 63) ≤ i) (hhi : i < 2 ^ 63) :
    (c.typeOf ≠ .boolT → resKind (asBool c)
      = some (if c.typeOf = .badLookupType then .kMissing else .kMismatch))
    ∧ (c.typeOf ≠ .stringT → resKind (asString c)
      = some (if c.typeOf = .badLookupType then .kMissing else .kMismatch))
    ∧ (c.typeOf ≠ .arrayT → resKind (asArray c)
      = some (if c.typeOf = .badLookupType then .kMissing else .kMismatch))
    ∧ (c.typeOf ≠ .objectT → resKind (asObject c)
      = some (if c.typeOf = .badLookupType then .kMissing else .kMismatch))
    ∧ (c.typeOf ≠ .floatT → c.typeOf ≠ .intT →
        resKind (asFloat c)
          = some (if c.typeOf = .badLookupType then .kMissing else .kMismatch)
        ∧ resKind (asDouble c)
          = some (if c.typeOf = .badLookupType then .kMissing else .kMismatch))
    ∧ (c.val = .intV i →
        asFloat c = .ok (.ofI64 i) ∧ asDouble c = .ok (.ofI64 i))
    ∧ (c.typeOf ≠ .intT → resKind (asInteger t c)
      = some (if c.typeOf = .badLookupType then .kMissing else .kMismatch))
    ∧ (c.val = .intV i →
        ((reprInt t i = true ∨ (t.signed = false ∧ t.width = 64)) →
          asInteger t c = .ok (castValue t i))
        ∧ (¬(reprInt t i = true ∨ (t.signed = false ∧ t.width = 64)) →
          asInteger t c = .error (.intOutOfRange c.whereStr))) := by
  obtain ⟨v, d, l, cm⟩ := c
  have hcast := castBack_iff t i hw hlo hhi
  refine ⟨?_, ?_, ?_, ?_, ?_, ?_, ?_, ?_⟩
  · intro hne
    cases v <;>
      simp_all [asBool, assertType, resKind, errK, Config.typeOf, Config.val,
                CfgVal.typeOf]
  · intro hne
    cases v <;>
      simp_all [asString, assertType, resKind, errK, Config.typeOf, Config.val,
                CfgVal.typeOf]
  · intro hne
    cases v <;>
      simp_all [asArray, assertType, resKind, errK, Config.typeOf, Config.val,
                CfgVal.typeOf]
  · intro hne
    cases v <;>
      simp_all [asObject, assertType, resKind, errK, Config.typeOf, Config.val,
                CfgVal.typeOf]
  · intro hne hni
    cases v <;>
      simp_all [asFloat, asDouble, assertType, resKind, errK, Config.typeOf,
                Config.val, CfgVal.typeOf]
  · intro hv
    cases v <;> simp_all [asFloat, asDouble, Config.val]
  · intro hne
    cases v <;>
      simp_all [asInteger, assertType, resKind, errK, Config.typeOf, Config.val,
                CfgVal.typeOf]
  · intro hv
    have hval : CfgVal.intV i = v := by
      cases v <;> simpa [Config.val] using hv.symm
    subst hval
    constructor
    · intro hcond
      have hc' : castBackI64 t i = i := hcast.mpr hcond
      simp [asInteger, assertType, Config.val, CfgVal.typeOf, hc']
    · intro hcond
      have hc' : ¬(castBackI64 t i = i) := fun h => hcond (hcast.mp h)
      simp [asInteger, assertType, Config.val, CfgVal.typeOf, Config.whereStr,
            Config.docOf, Config.lineOf, hc']

/-- A decimal digit byte differs from any byte outside the digit range. -/
theorem digit_neq (c : Char) (h : isDigitB c = true) (x : Char)
    (hx : x.toNat < 48 ∨ 57 < x.toNat) : (c == x) = false := by
  by_cases hcx : c = x
  · subst hcx
    simp only [isDigitB, Bool.and_eq_true, decide_eq_true_eq] at h
    omega
  · exact beq_eq_false_iff_ne.mpr hcx

/-- takeWhile is the identity on a list all of whose elements satisfy the
test. -/
theorem takeWhile_eq_self_of {p : Char → Bool} (l : Bytes)
    (h : ∀ c ∈ l, p c = true) : l.takeWhile p = l := by
  induction l with
  | nil => rfl
  | cons c rest ih =>
    simp only [List.takeWhile, h c (List.mem_cons_self c rest)]
    exact congrArg (c :: ·) (ih fun d hd => h d (List.mem_cons_of_mem c hd))

/-- skip_white under the default dialect does not move when the cursor is
on a decimal digit. -/
theorem skipWhite_digit_noop (f : Nat) (st : PSt)
    (h : isDigitB (byteAt st 0) = true) :
    skipWhite CFG (f + 1) false st = .ok ((false, -1, []), st) := by
  have h10 := digit_neq _ h '\n' (by decide)
  have h13 := digit_neq _ h '\r' (by decide)
  have h09 := digit_neq _ h '\t' (by decide)
  have h32 := digit_neq _ h ' ' (by decide)
  have h47 := digit_neq _ h '/' (by decide)
  simp [skipWhite, skipWhiteLoop, h10, h13, h09, h32, h47, matchAt, CFG, bytes]

/-- Reduction of Except binds on an ok value (the do-notation forms used
by the parser). -/
theorem exc_bind_ok {E A B : Type} (a : A) (f : A → Except E B) :
    (Except.ok a : Except E A) >>= f = f a := rfl

/-- pure on Except is ok. -/
theorem exc_pure_eq {E A : Type} (a : A) : (pure a : Except E A) = Except.ok a := rfl

/-- throw on Except is error. -/
theorem exc_throw_eq {E A : Type} (e : E) :
    (throw e : Except E A) = Except.error e := rfl

/-- Mapping over an error is the error. -/
theorem exc_map_error {E A B : Type} (f : A → B) (e : E) :
    f <$> (Except.error e : Except E A) = Except.error e := rfl

/-- Sequencing after an error is the error. -/
theorem exc_bind_error {E A B : Type} (e : E) (f : A → Except E B) :
    (Except.error e : Except E A) >>= f = Except.error e := rfl

/-- Sequencing a statement after an error stays the error. -/
theorem exc_seq_error {E A B : Type} (e : E) (x : Except E B) :
    (do let _ ← (Except.error e : Except E A); x) = Except.error e := rfl

/-- Claim C8 (amended): for a decimal integer token (a non-empty string
of digits), a leading zero is allowed exactly when the token's base-10
value is zero — a token starting with 0 whose value is nonzero (01, 012,
…) raises a ParseError, while 0, 00, 000, … parse to the integer 0; and
every token whose spelling does not trip that check parses to its base-10
value clamped to the int64 maximum by strtoll, with an optional leading
minus sign applied (stated here under the default dialect). -/
theorem c8_decimal_leading_zero_amended (opts : FormatOptions) (ds : Bytes)
    (hne : ds ≠ []) (hds : ∀ ch ∈ ds, isDigitB ch = true) :
    (∀ (fuel : Nat) (dst : Config), ds.head? = some '0' → decValue ds ≠ 0 →
      ∃ e, parseFiniteNumber opts fuel dst (pst0 ds) = .error e)
    ∧ (∀ (fuel : Nat) (dst : Config), ¬(ds.head? = some '0' ∧ decValue ds ≠ 0) →
      parseFiniteNumber opts fuel dst (pst0 ds)
        = .ok (assignMove dst
                (Config.ofInt (min (decValue ds : Int) (2 ^ 63 - 1))),
               advanceP (pst0 ds) ds.length))
    ∧ (∀ (fuel : Nat) (dst : Config), ¬(ds.head? = some '0' ∧ decValue ds ≠ 0) →
      parseFiniteNumber CFG (fuel + 1) dst (pst0 ('-' :: ds))
        = .ok (assignMove dst
                (Config.ofInt (-(min (decValue ds : Int) (2 ^ 63 - 1)))),
               advanceP (advanceP (pst0 ('-' :: ds)) 1) ds.length)) := by
  obtain ⟨d0, rest, rfl⟩ := List.exists_cons_of_ne_nil hne
  have hd0 : isDigitB d0 = true := hds d0 (by simp)
  have hb0 : byteAt (pst0 (d0 :: rest)) 0 = d0 := by simp [byteAt, pst0]
  have hplus := digit_neq _ hd0 '+' (by decide)
  have hminus := digit_neq _ hd0 '-' (by decide)
  have hb1x : (byteAt (pst0 (d0 :: rest)) 1 == 'x') = false := by
    cases rest with
    | nil => simp [byteAt, pst0]; decide
    | cons r0 rs =>
      have hr : isDigitB r0 = true := hds r0 (by simp)
      simpa [byteAt, pst0] using digit_neq _ hr 'x' (by decide)
  have hb1b : (byteAt (pst0 (d0 :: rest)) 1 == 'b') = false := by
    cases rest with
    | nil => simp [byteAt, pst0]; decide
    | cons r0 rs =>
      have hr : isDigitB r0 = true := hds r0 (by simp)
      simpa [byteAt, pst0] using digit_neq _ hr 'b' (by decide)
  have htw : List.takeWhile isDigitB (d0 :: rest) = d0 :: rest :=
    takeWhile_eq_self_of _ hds
  have hafter : byteAt (pst0 (d0 :: rest)) (d0 :: rest).length = nulChar := by
    simp [byteAt, pst0, List.getD_eq_default]
  have hp : (pst0 (d0 :: rest)).pos = 0 := rfl
  have hi : (pst0 (d0 :: rest)).input = d0 :: rest := rfl
  have hnd : (nulChar == '.') = false := by decide
  have hne1 : (nulChar == 'e') = false := by decide
  have hne2 : (nulChar == 'E') = false := by decide
  have hlen0 : (((d0 :: rest).length : Nat) == 0) = false := by simp
  refine ⟨?_, ?_, ?_⟩
  · intro fuel dst hhead hdec
    have hz : d0 = '0' := by simpa using hhead
    subst hz
    have hmin : ¬((decValue ('0' :: rest) : Int) ⊓ 9223372036854775807 = 0) := by
      have : (decValue ('0' :: rest) : Int) ≠ 0 := by exact_mod_cast hdec
      omega
    refine ⟨throwErr (advanceP (pst0 ('0' :: rest)) ('0' :: rest).length)
      "Integer may not start with a zero", ?_⟩
    simp only [parseFiniteNumber, hb0, hplus, hminus, hb1x, hb1b,
               Bool.and_false, Bool.false_eq_true, if_false, ite_false,
               Bool.false_and, hp, hi, List.drop_zero, htw, hafter, hnd,
               hne1, hne2, strtollDec, hlen0]
    simp [hmin, exc_throw_eq, exc_map_error, exc_pure_eq, exc_bind_ok,
          exc_bind_error, exc_seq_error]
  · intro fuel dst hcond
    simp only [parseFiniteNumber, hb0, hplus, hminus, hb1x, hb1b,
               Bool.and_false, Bool.false_eq_true, if_false, ite_false,
               Bool.false_and, hp, hi, List.drop_zero, htw, hafter, hnd,
               hne1, hne2, strtollDec, hlen0]
    by_cases hz : d0 = '0'
    · subst hz
      have hdec : decValue ('0' :: rest) = 0 := by
        by_contra h0
        exact hcond ⟨rfl, h0⟩
      have hmin : ((decValue ('0' :: rest) : Int) ⊓ 9223372036854775807) = 0 := by
        rw [hdec]; norm_num
      simp [hmin, one_mul, exc_pure_eq, exc_bind_ok]
    · have hz' : (d0 == '0') = false := beq_eq_false_iff_ne.mpr hz
      simp [hz', one_mul, exc_pure_eq, exc_bind_ok]
  · intro fuel dst hcond
    have hm0 : byteAt (pst0 ('-' :: d0 :: rest)) 0 = '-' := by
      simp [byteAt, pst0]
    have hd1 : isDigitB (byteAt (advanceP (pst0 ('-' :: d0 :: rest)) 1) 0)
        = true := by
      simpa [byteAt, advanceP, pst0] using hd0
    have hsw := skipWhite_digit_noop fuel (advanceP (pst0 ('-' :: d0 :: rest)) 1) hd1
    have hb0' : byteAt (advanceP (pst0 ('-' :: d0 :: rest)) 1) 0 = d0 := by
      simp [byteAt, advanceP, pst0]
    have hb1x' : (byteAt (advanceP (pst0 ('-' :: d0 :: rest)) 1) 1 == 'x')
        = false := by
      cases rest with
      | nil => simp [byteAt, advanceP, pst0]; decide
      | cons r0 rs =>
        have hr : isDigitB r0 = true := hds r0 (by simp)
        simpa [byteAt, advanceP, pst0] using digit_neq _ hr 'x' (by decide)
    have hb1b' : (byteAt (advanceP (pst0 ('-' :: d0 :: rest)) 1) 1 == 'b')
        = false := by
      cases rest with
      | nil => simp [byteAt, advanceP, pst0]; decide
      | cons r0 rs =>
        have hr : isDigitB r0 = true := hds r0 (by simp)
        simpa [byteAt, advanceP, pst0] using digit_neq _ hr 'b' (by decide)
    have hdrop : List.drop (advanceP (pst0 ('-' :: d0 :: rest)) 1).pos
        (advanceP (pst0 ('-' :: d0 :: rest)) 1).input = d0 :: rest := by
      simp [advanceP, pst0]
    have hafter' : byteAt (advanceP (pst0 ('-' :: d0 :: rest)) 1)
        (d0 :: rest).length = nulChar := by
      show List.getD ('-' :: d0 :: rest) (0 + 1 + (d0 :: rest).length) nulChar
        = nulChar
      exact List.getD_eq_default _ _ (by simp; omega)
    have hswic : skipWhiteIC CFG (fuel + 1) (advanceP (pst0 ('-' :: d0 :: rest)) 1)
        = .ok (false, advanceP (pst0 ('-' :: d0 :: rest)) 1) := by
      simp [skipWhiteIC, hsw]
    simp only [parseFiniteNumber, hm0, hswic, exc_bind_ok, hb0', hplus, hminus,
               hb1x', hb1b', Bool.and_false, Bool.false_eq_true, if_false,
               ite_false, Bool.false_and, hdrop, htw, hafter', hnd, hne1,
               hne2, strtollDec, hlen0,
               show (('-' : Char) == '+') = false from by decide,
               show (('-' : Char) == '-') = true from by decide]
    by_cases hz : d0 = '0'
    · subst hz
      have hdec : decValue ('0' :: rest) = 0 := by
        by_contra h0
        exact hcond ⟨rfl, h0⟩
      have hmin : ((decValue ('0' :: rest) : Int) ⊓ 9223372036854775807) = 0 := by
        rw [hdec]; norm_num
      simp [hmin, neg_one_mul, exc_pure_eq, exc_bind_ok]
    · have hz' : (d0 == '0') = false := beq_eq_false_iff_ne.mpr hz
      simp [hz', neg_one_mul, exc_pure_eq, exc_bind_ok]

/-- Witness for claim C8's amended theorem at the tokens "00", "7" and
"-7". -/
theorem c8_decimal_witness :
    parseFiniteNumber CFG 5 Config.uninitC (pst0 (bytes "00"))
      = .ok (assignMove Config.uninitC (Config.ofInt 0),
             advanceP (pst0 (bytes "00")) 2)
    ∧ parseFiniteNumber CFG 5 Config.uninitC (pst0 (bytes "7"))
      = .ok (assignMove Config.uninitC (Config.ofInt 7),
             advanceP (pst0 (bytes "7")) 1)
    ∧ (∃ e, parseFiniteNumber CFG 5 Config.uninitC (pst0 (bytes "01"))
        = .error e) := by
  refine ⟨?_, ?_, ?_⟩
  · have h := (c8_decimal_leading_zero_amended CFG (bytes "00")
      (by decide) (by decide)).2.1 5 Config.uninitC (by simp [bytes, decValue])
    simpa [bytes, decValue] using h
  · have h := (c8_decimal_leading_zero_amended CFG (bytes "7")
      (by decide) (by decide)).2.1 5 Config.uninitC
      (by simp [bytes])
    simpa [bytes, decValue] using h
  · exact (c8_decimal_leading_zero_amended CFG (bytes "01")
      (by decide) (by decide)).1 5 Config.uninitC (by simp [bytes])
      (by simp [bytes, decValue])

/-- Witness for claim C7's amended theorem: reading Int 100 as a signed
8-bit type succeeds with its value, and reading Int 200 as the same type
fails with the range error. -/
theorem c7_typed_accessors_witness :
    asInteger ⟨true, 8⟩ (Config.ofInt 100) = .ok (castValue ⟨true, 8⟩ 100)
    ∧ asInteger ⟨true, 8⟩ (Config.ofInt 200)
      = .error (.intOutOfRange (Config.ofInt 200).whereStr) :=
  ⟨((c7_typed_accessors_amended (Config.ofInt 100) ⟨true, 8⟩ 100
      (Or.inl rfl) (by decide) (by decide)).2.2.2.2.2.2.2 rfl).1
      (Or.inl (by decide)),
   ((c7_typed_accessors_amended (Config.ofInt 200) ⟨true, 8⟩ 200
      (Or.inl rfl) (by decide) (by decide)).2.2.2.2.2.2.2 rfl).2
      (by decide)⟩

end Configuru
